import Mathlib

/-!
Verification of the go-typec USB-PD sink stack: a shallow embedding of the
pdmsg codec, the typec event set, the tcdpm reference policies and the tcpe
policy engine, together with theorems settling the specification claims.

Machine integers are modelled as `Nat` with explicit masking / `% 2^w`
truncation at the points where the Go code performs fixed-width arithmetic
or casts.  Fallible operations (Go run-time panics such as out-of-range
indexing and division by zero) are modelled with `Except GoPanic`.
-/

/-- Go run-time panic kinds reachable in the embedded code. -/
inductive GoPanic
  | indexOutOfRange
  | divideByZero
deriving DecidableEq

/-! ## pdmsg: message codec (src pdmsg package) -/
/-- Power delivery message: 16-bit header and up to 7 data objects.
The `Data` list always has length 7, mirroring the fixed Go array. -/
structure Message where
  Header : Nat
  Data : List Nat
deriving DecidableEq

/-- The Go zero value of `Message`. -/
def emptyMessage : Message := ⟨0, List.replicate 7 0⟩

/-- `DataObjectCount` returns bits 12-14 of the header. -/
def Message.DataObjectCount (m : Message) : Nat := (m.Header >>> 12) &&& 7

/-- `SetDataObjectCount`: `(h & ^(0b111<<12)) | (uint16(n) << 12)` with `n : uint8`. -/
def Message.SetDataObjectCount (m : Message) (n : Nat) : Message :=
  { m with Header := (m.Header &&& (65535 ^^^ (7 <<< 12))) ||| (((n % 256) <<< 12) % 65536) }

/-- `IsData` is true when the data object count is positive. -/
def Message.IsData (m : Message) : Bool := 0 < m.DataObjectCount

/-- `ID` returns bits 9-11 of the header. -/
def Message.ID (m : Message) : Nat := (m.Header >>> 9) &&& 7

/-- `SetID`: `(h & ^(0b111<<9)) | (uint16(id) << 9)` with `id : uint8`. -/
def Message.SetID (m : Message) (id : Nat) : Message :=
  { m with Header := (m.Header &&& (65535 ^^^ (7 <<< 9))) ||| (((id % 256) <<< 9) % 65536) }

/-- `Type` returns bits 0-4 of the header (named `getType`; `Type` is reserved). -/
def Message.getType (m : Message) : Nat := m.Header &&& 31

/-- `SetType`: `(h & ^(0b11111)) | uint16(t)` with `t : uint8`. -/
def Message.SetType (m : Message) (t : Nat) : Message :=
  { m with Header := (m.Header &&& (65535 ^^^ 31)) ||| (t % 256) }

/-- `Revision` returns bits 6-7 of the header. -/
def Message.Revision (m : Message) : Nat := (m.Header >>> 6) &&& 3

/-- `SetRevision`: `(h & ^(0b11<<6)) | uint16(r<<6)`; the shift happens in uint8. -/
def Message.SetRevision (m : Message) (r : Nat) : Message :=
  { m with Header := (m.Header &&& (65535 ^^^ (3 <<< 6))) ||| ((r <<< 6) % 256) }

/-- `PowerRole` returns bit 8 of the header. -/
def Message.PowerRole (m : Message) : Nat := (m.Header >>> 8) &&& 1

/-- `SetPowerRole`: `(h & ^(1<<8)) | (uint16(r) << 8)` with `r : uint8`. -/
def Message.SetPowerRole (m : Message) (r : Nat) : Message :=
  { m with Header := (m.Header &&& (65535 ^^^ (1 <<< 8))) ||| (((r % 256) <<< 8) % 65536) }

/-- `DataRole` returns bit 5 of the header. -/
def Message.DataRole (m : Message) : Nat := (m.Header >>> 5) &&& 1

/-- `SetDataRole`: `(h & ^(1<<5)) | uint16(r<<5)`; the shift happens in uint8. -/
def Message.SetDataRole (m : Message) (r : Nat) : Message :=
  { m with Header := (m.Header &&& (65535 ^^^ (1 <<< 5))) ||| ((r <<< 5) % 256) }

/-- `IsExtended` reads bit 15 of the header. -/
def Message.IsExtended (m : Message) : Bool := m.Header &&& (1 <<< 15) ≠ 0

/-- `SetExtended` writes bit 15 of the header. -/
def Message.SetExtended (m : Message) (e : Bool) : Message :=
  { m with Header := (m.Header &&& (65535 ^^^ (1 <<< 15))) ||| (if e then 1 <<< 15 else 0) }

/-- `ToBytes` serializes the header little-endian followed by `count` data
objects little-endian, returning the written bytes and the byte count. -/
def Message.ToBytes (m : Message) : List Nat × Nat :=
  let c := m.DataObjectCount
  ([m.Header % 256, (m.Header >>> 8) % 256] ++
      (m.Data.take c).flatMap
        (fun d => [d % 256, (d >>> 8) % 256, (d >>> 16) % 256, (d >>> 24) % 256]),
    2 + c * 4)

/-- `PDO.Type`: top two bits, with augmented sub-type folded in
(named `getType` since `Type` is reserved). -/
def PDO.getType (o : Nat) : Nat :=
  let h := (o >>> 30) &&& 3
  if h = 3 then ((((o >>> 28) &&& 3) <<< 3) ||| 4 ||| h) else h

/-- `FixedSupplyPDO.Voltage`: bits 10-19 times 50 mV, as uint16. -/
def FixedSupplyPDO.Voltage (o : Nat) : Nat := (((o >>> 10) &&& 1023) * 50) % 65536

/-- `FixedSupplyPDO.SetVoltage`: clears bits 10-19 and stores `v/50` masked to 10 bits. -/
def FixedSupplyPDO.SetVoltage (o v : Nat) : Nat :=
  (o &&& (4294967295 ^^^ (1023 <<< 10))) ||| ((((v % 65536) / 50) &&& 1023) <<< 10)

/-- `FixedSupplyPDO.MaxCurrent`: bits 0-9 times 10 mA, as uint16. -/
def FixedSupplyPDO.MaxCurrent (o : Nat) : Nat := ((o &&& 1023) * 10) % 65536

/-- `FixedSupplyPDO.SetMaxCurrent`: clears bits 0-9 and stores `v/10` masked to 10 bits. -/
def FixedSupplyPDO.SetMaxCurrent (o v : Nat) : Nat :=
  (o &&& (4294967295 ^^^ 1023)) ||| (((v % 65536) / 10) &&& 1023)

/-- `PPSPDO.MinVoltage`: bits 8-15 times 100 mV (computed on `uint16(o)`). -/
def PPSPDO.MinVoltage (o : Nat) : Nat := ((((o % 65536) >>> 8) &&& 255) * 100) % 65536

/-- `PPSPDO.SetMinVoltage`: clears bits 8-15 and stores `v/100` masked to 8 bits. -/
def PPSPDO.SetMinVoltage (o v : Nat) : Nat :=
  (o &&& (4294967295 ^^^ (255 <<< 8))) ||| ((((v % 65536) / 100) &&& 255) <<< 8)

/-- `PPSPDO.MaxVoltage`: bits 17-24 times 100 mV (computed on `uint16(o>>17)`). -/
def PPSPDO.MaxVoltage (o : Nat) : Nat := ((((o >>> 17) % 65536) &&& 255) * 100) % 65536

/-- `PPSPDO.SetMaxVoltage`: clears bits 17-24 and stores `v/100` masked to 8 bits. -/
def PPSPDO.SetMaxVoltage (o v : Nat) : Nat :=
  (o &&& (4294967295 ^^^ (255 <<< 17))) ||| ((((v % 65536) / 100) &&& 255) <<< 17)

/-- `PPSPDO.MaxCurrent`: bits 0-6 times 50 mA (computed on `uint16(o)`). -/
def PPSPDO.MaxCurrent (o : Nat) : Nat := (((o % 65536) &&& 127) * 50) % 65536

/-- `PPSPDO.SetMaxCurrent`: the Go code clears bits 0-7 (mask `1<<8 - 1`,
wider than the 7-bit field) and stores `c/50` masked to 7 bits. -/
def PPSPDO.SetMaxCurrent (o c : Nat) : Nat :=
  (o &&& (4294967295 ^^^ 255)) ||| (((c % 65536) / 50) &&& 127)

/-- `RequestDO.SelectedObjectPosition`: `uint8(o >> 28)`. -/
def RequestDO.SelectedObjectPosition (o : Nat) : Nat := (o >>> 28) % 256

/-- `RequestDO.SetSelectedObjectPosition`: clears bits 28-31 and ors
`RequestDO(p) << 28` truncated to 32 bits. -/
def RequestDO.SetSelectedObjectPosition (o p : Nat) : Nat :=
  (o &&& (4294967295 ^^^ (15 <<< 28))) ||| (((p % 256) <<< 28) % 4294967296)

/-- `RequestDO.CapabilityMismatch`: bit 26. -/
def RequestDO.CapabilityMismatch (o : Nat) : Bool := o &&& (1 <<< 26) ≠ 0

/-- `RequestDO.SetCapabilityMismatch`: writes bit 26. -/
def RequestDO.SetCapabilityMismatch (o : Nat) (m : Bool) : Nat :=
  (o &&& (4294967295 ^^^ (1 <<< 26))) ||| (if m then 1 <<< 26 else 0)

/-- `RequestDO.FixedOperatingCurrent`: bits 10-19 times 10 mA. -/
def RequestDO.FixedOperatingCurrent (o : Nat) : Nat := (((o >>> 10) &&& 1023) * 10) % 65536

/-- `RequestDO.SetFixedOperatingCurrent`: clears bits 10-19, stores `c/10` masked to 10 bits. -/
def RequestDO.SetFixedOperatingCurrent (o c : Nat) : Nat :=
  (o &&& (4294967295 ^^^ (1023 <<< 10))) ||| ((((c % 65536) / 10) &&& 1023) <<< 10)

/-- `RequestDO.FixedMaxOperatingCurrent`: bits 0-9 times 10 mA. -/
def RequestDO.FixedMaxOperatingCurrent (o : Nat) : Nat := ((o &&& 1023) * 10) % 65536

/-- `RequestDO.SetFixedMaxOperatingCurrent`: clears bits 0-9, stores `c/10` masked to 10 bits. -/
def RequestDO.SetFixedMaxOperatingCurrent (o c : Nat) : Nat :=
  (o &&& (4294967295 ^^^ 1023)) ||| (((c % 65536) / 10) &&& 1023)

/-- `RequestDO.PPSOutputVoltage`: bits 9-20 times 20 mV, cast to uint16. -/
def RequestDO.PPSOutputVoltage (o : Nat) : Nat := (((o >>> 9) &&& 4095) * 20) % 65536

/-- `RequestDO.SetPPSOutputVoltage`: clears bits 9-20, stores `v/20` masked to 12 bits. -/
def RequestDO.SetPPSOutputVoltage (o v : Nat) : Nat :=
  (o &&& (4294967295 ^^^ (4095 <<< 9))) ||| ((((v % 65536) / 20) &&& 4095) <<< 9)

/-- `RequestDO.PPSOutputCurrent`: bits 0-6 times 50 mA. -/
def RequestDO.PPSOutputCurrent (o : Nat) : Nat := ((o &&& 127) * 50) % 65536

/-- `RequestDO.SetPPSOutputCurrent`: clears bits 0-6, stores `v/50` masked to 7 bits. -/
def RequestDO.SetPPSOutputCurrent (o v : Nat) : Nat :=
  (o &&& (4294967295 ^^^ 127)) ||| (((v % 65536) / 50) &&& 127)

/-! ## typec: event set -/
/-- Loop body of `Event.Pop`: scan mask `r` upward through the 16 bit
positions (`fuel` counts the remaining loop iterations, 16 at the start,
exactly matching `for r := 1; r <= 0x8000; r <<= 1`). -/
def Event.popScan (e : Nat) (r : Nat) : Nat → Nat
  | 0 => 0
  | fuel + 1 => if e &&& r ≠ 0 then r else Event.popScan e (r <<< 1) fuel

/-- `Event.Pop` removes and returns the highest-priority (lowest-bit) pending
event, or 0 (`EventNone`) when the set is empty. -/
def Event.Pop (e : Nat) : Nat × Nat :=
  if e = 0 then (0, e)
  else
    let r := Event.popScan e 1 16
    (r, e &&& (65535 ^^^ r))

/-- `Event.Add` ors the given events into the set. -/
def Event.Add (e v : Nat) : Nat := e ||| v

/-- `Event.Has` tests membership without clearing. -/
def Event.Has (e v : Nat) : Bool := e &&& v ≠ 0

/-! ## tcdpm: constant-voltage policy (tcdpm.go, first revision) -/
/-- Parameters of `CVPolicy` (all voltages mV, currents mA, stored as uint16). -/
structure CVPolicy where
  MinVoltage : Nat
  MaxVoltage : Nat
  Current : Nat
  PreferLowerVoltage : Bool
  PreferPPS : Bool
deriving DecidableEq

/-- `cvCurrentMargin`: 150 mA PPS margin. -/
def cvCurrentMargin : Nat := 150

/-- Fixed-supply branch of the CV loop body, updating
`(bestFixedVoltage, bestFixedRDO)`. -/
def cvFixedUpdate (c : CVPolicy) (i p : Nat) (best : Nat × Nat) : Nat × Nat :=
  let v := FixedSupplyPDO.Voltage p
  if c.MinVoltage ≤ v ∧ v ≤ c.MaxVoltage ∧ c.Current ≤ FixedSupplyPDO.MaxCurrent p then
    if (c.PreferLowerVoltage ∧ v < best.1) ∨ (¬c.PreferLowerVoltage ∧ best.1 < v) then
      (v, RequestDO.SetFixedOperatingCurrent
            (RequestDO.SetFixedMaxOperatingCurrent
              (RequestDO.SetSelectedObjectPosition best.2 ((i % 256 + 1) % 256)) c.Current)
            c.Current)
    else best
  else best

/-- PPS branch of the CV loop body, updating `(bestPPSVoltage, bestPPSRDO)`;
`pm` is the precomputed `c.Current + cvCurrentMargin` (uint16). -/
def cvPPSUpdate (c : CVPolicy) (pm i p : Nat) (best : Nat × Nat) : Nat × Nat :=
  let minV := max c.MinVoltage (PPSPDO.MinVoltage p)
  let maxV := min c.MaxVoltage (PPSPDO.MaxVoltage p)
  if minV ≤ maxV ∧ pm ≤ PPSPDO.MaxCurrent p then
    if c.PreferLowerVoltage ∧ minV < best.1 then
      (minV, RequestDO.SetPPSOutputCurrent
               (RequestDO.SetPPSOutputVoltage
                 (RequestDO.SetSelectedObjectPosition best.2 ((i % 256 + 1) % 256)) minV)
               c.Current)
    else if ¬c.PreferLowerVoltage ∧ best.1 < maxV then
      (maxV, RequestDO.SetPPSOutputCurrent
               (RequestDO.SetPPSOutputVoltage
                 (RequestDO.SetSelectedObjectPosition best.2 ((i % 256 + 1) % 256)) maxV)
               c.Current)
    else best
  else best

/-- The `for i, p := range pdos` loop of `CVPolicy.EvaluateCapabilities`. -/
def cvLoop (c : CVPolicy) (pm : Nat) : Nat → (Nat × Nat) → (Nat × Nat) → List Nat →
    (Nat × Nat) × (Nat × Nat)
  | _, bf, bp, [] => (bf, bp)
  | i, bf, bp, p :: rest =>
    let t := PDO.getType p
    if t = 0 then cvLoop c pm (i + 1) (cvFixedUpdate c i p bf) bp rest
    else if t = 7 then cvLoop c pm (i + 1) bf (cvPPSUpdate c pm i p bp) rest
    else cvLoop c pm (i + 1) bf bp rest

/-- `CVPolicy.EvaluateCapabilities` (first revision of tcdpm.go). -/
def CVPolicy.EvaluateCapabilities (c : CVPolicy) (pdos : List Nat) : Nat :=
  let pm := (c.Current + cvCurrentMargin) % 65536
  let b0 : Nat := if c.PreferLowerVoltage then 65535 else 0
  let r := cvLoop c pm 0 (b0, 0) (b0, 0) pdos
  let bf := r.1.2
  let bp := r.2.2
  if bf = 0 then bp else if bp = 0 then bf else if c.PreferPPS then bp else bf

/-! ## tcdpm: constant-power policy -/
/-- Parameters of `CPPolicy` (voltages mV, power mW, stored as uint16). -/
structure CPPolicy where
  MinVoltage : Nat
  MaxVoltage : Nat
  Power : Nat
  PreferLowerVoltage : Bool
  PreferPPS : Bool
deriving DecidableEq

/-- The loop of `CPPolicy.EvaluateCapabilities`.  Each Go integer division is
guarded: a zero divisor is a Go run-time panic, modelled as `.error`. -/
def cpLoop (c : CPPolicy) : Nat → (Nat × Nat) → (Nat × Nat) → List Nat →
    Except GoPanic ((Nat × Nat) × (Nat × Nat))
  | _, bf, bp, [] => .ok (bf, bp)
  | i, bf, bp, p :: rest =>
    let t := PDO.getType p
    if t = 0 then
      let v := FixedSupplyPDO.Voltage p
      if v = 0 then .error .divideByZero
      else
        let maxCur := c.Power / v
        let bf' :=
          if c.MinVoltage ≤ v ∧ v ≤ c.MaxVoltage ∧ maxCur ≤ FixedSupplyPDO.MaxCurrent p then
            if (c.PreferLowerVoltage ∧ v < bf.1) ∨ (¬c.PreferLowerVoltage ∧ bf.1 < v) then
              (v, RequestDO.SetFixedOperatingCurrent
                    (RequestDO.SetFixedMaxOperatingCurrent
                      (RequestDO.SetSelectedObjectPosition bf.2 ((i % 256 + 1) % 256)) maxCur)
                    maxCur)
            else bf
          else bf
        cpLoop c (i + 1) bf' bp rest
    else if t = 7 then
      let minV := max c.MinVoltage (PPSPDO.MinVoltage p)
      let maxV := min c.MaxVoltage (PPSPDO.MaxVoltage p)
      if minV ≤ maxV then
        if maxV = 0 then .error .divideByZero
        else
          let maxC := (c.Power / maxV + cvCurrentMargin) % 65536
          let d := (PPSPDO.MaxCurrent p + 65536 - cvCurrentMargin) % 65536
          if d = 0 then .error .divideByZero
          else
            let minPV := max (c.Power / d) minV
            if c.PreferLowerVoltage ∧ minPV < bp.1 ∧ minPV ≤ maxV then
              if minPV = 0 then .error .divideByZero
              else
                cpLoop c (i + 1) bf
                  (minPV, RequestDO.SetPPSOutputCurrent
                            (RequestDO.SetPPSOutputVoltage
                              (RequestDO.SetSelectedObjectPosition bp.2 ((i % 256 + 1) % 256))
                              minPV)
                            (c.Power / minPV)) rest
            else if ¬c.PreferLowerVoltage ∧ bp.1 < maxV ∧ maxC ≤ PPSPDO.MaxCurrent p then
              cpLoop c (i + 1) bf
                (maxV, RequestDO.SetPPSOutputCurrent
                         (RequestDO.SetPPSOutputVoltage
                           (RequestDO.SetSelectedObjectPosition bp.2 ((i % 256 + 1) % 256))
                           maxV)
                         maxC) rest
            else cpLoop c (i + 1) bf bp rest
      else cpLoop c (i + 1) bf bp rest
    else cpLoop c (i + 1) bf bp rest

/-- `CPPolicy.EvaluateCapabilities` (first revision of tcdpm.go), with Go
run-time panics surfaced as `.error`. -/
def CPPolicy.EvaluateCapabilities (c : CPPolicy) (pdos : List Nat) : Except GoPanic Nat :=
  let b0 : Nat := if c.PreferLowerVoltage then 65535 else 0
  match cpLoop c 0 (b0, 0) (b0, 0) pdos with
  | .error e => .error e
  | .ok r =>
    let bf := r.1.2
    let bp := r.2.2
    .ok (if bf = 0 then bp else if bp = 0 then bf else if c.PreferPPS then bp else bf)

/-! ## tcpe: the sink policy engine (src/tcpe/tcpe.go)

The engine is embedded as a deterministic step function over the mutable
fields of `PolicyEngine`.  The port controller and the wall clock are
modelled by a per-iteration `Oracle` describing the results the hardware
would return.  The DPM is a pure function `List Nat → Nat` (PDOs in, RDO
out); `Run`'s loop body becomes `step`, and `run` folds it over a list of
oracles, stopping at the first Go run-time panic. -/
/-- Engine state names (the nine `state` singletons of tcpe.go). -/
inductive SName
  | noPD
  | sinkStartup
  | sinkDiscovery
  | sinkWaitForCap
  | sinkEvalCap
  | sinkSelectCap
  | sinkTransitionSink
  | sinkReady
  | sinkHardReset
deriving DecidableEq

/-- `PowerChangeDetail` passed to the power-change callback. -/
structure PCD where
  On : Bool
  Voltage : Nat
  MaxCurrent : Nat
  CurrentSource : Bool
deriving DecidableEq

/-- Mutable fields of `PolicyEngine`.  `timer = none` models
`maxTimerExpiry` ("no timer armed"); `some d` records an armed timer of
duration `d` milliseconds. -/
structure PE where
  timer : Option Nat
  sourceCapMsg : Message
  requestDO : Nat
  msgTpl : Message
  pdoBuf : List Nat
  explicitContract : Bool
  waitingOnSource : Bool
  events : Nat
  v5PDO : Nat
  nextTxID : Nat
  lastRxID : Nat
deriving DecidableEq

/-- Observable actions of one loop iteration. -/
inductive EngineOut
  | enterStartup
  | txMsg (m : Message)
  | callback (d : PCD)
deriving DecidableEq

/-- Environment behaviour for one loop iteration: the `Alert` result, the
stream of messages `Rx` would deliver (ending in `ErrRxEmpty` when
`rxEmptyAtEnd`, another error otherwise), whether the armed timer has
expired, and the results of `Tx` / `Init` / `SendReset`. -/
structure Oracle where
  alertRes : Except Unit Nat
  rxq : List Message
  rxEmptyAtEnd : Bool
  timerFired : Bool
  txOk : Bool
  initOk : Bool
  resetOk : Bool

/-- `PolicyEngine.alertPCCB`: builds the `PowerChangeDetail`.  When `on`,
the Go code indexes `sourceCapMsg.Data[requestDO.SelectedObjectPosition()-1]`
with uint8 arithmetic; an index outside 0..6 is a run-time panic. -/
def alertPCCB (pe : PE) (isOn : Bool) : Except GoPanic PCD :=
  if isOn then
    let pos := RequestDO.SelectedObjectPosition pe.requestDO
    let idx := (pos + 255) % 256
    if idx < 7 then
      let pdo := pe.sourceCapMsg.Data.getD idx 0
      let t := PDO.getType pdo
      if t = 0 then
        .ok ⟨true, FixedSupplyPDO.Voltage pdo,
          RequestDO.FixedMaxOperatingCurrent pe.requestDO, false⟩
      else if t = 7 then
        .ok ⟨true, RequestDO.PPSOutputVoltage pe.requestDO,
          RequestDO.PPSOutputCurrent pe.requestDO, true⟩
      else .ok ⟨true, 0, 0, false⟩
    else .error .indexOutOfRange
  else .ok ⟨false, 0, 0, false⟩

/-- `PolicyEngine.ppsNegotiated`; `Data[p-1]` with `p` up to 15 can panic. -/
def ppsNegotiated (pe : PE) : Except GoPanic Bool :=
  let p := RequestDO.SelectedObjectPosition pe.requestDO
  if p = 0 then .ok false
  else if p - 1 < 7 then .ok (PDO.getType (pe.sourceCapMsg.Data.getD (p - 1) 0) = 7)
  else .error .indexOutOfRange

/-- `PolicyEngine.tx`: stamp the next tx ID, increment it mod 8, hand the
message to the port controller. -/
def txStep (pe : PE) (m : Message) : PE × Message :=
  let m' := Message.SetID m pe.nextTxID
  ({ pe with nextTxID := (pe.nextTxID + 1) % 8 }, m')

/-- `PolicyEngine.sendRDO`: fill the template with a Request carrying the RDO. -/
def sendRDO (pe : PE) (rdo : Nat) : PE × Message :=
  let m := Message.SetDataObjectCount (Message.SetType pe.msgTpl 2) 1
  let m := { m with Data := m.Data.set 0 rdo }
  txStep pe m

/-- `PolicyEngine.rx`: pull messages, silently discarding those whose ID
equals the last accepted rx ID; the first differing message is returned
together with the new baseline and the unread remainder. -/
def peRx (last : Nat) : List Message → Option (Message × Nat × List Message)
  | [] => none
  | m :: rest => if Message.ID m = last then peRx last rest else some (m, Message.ID m, rest)

/-- The package-level `defaultRDO` built by `init()`. -/
def defaultRDO : Nat :=
  RequestDO.SetFixedOperatingCurrent
    (RequestDO.SetFixedMaxOperatingCurrent (RequestDO.SetSelectedObjectPosition 0 1) 100) 100

/-- `Enter` actions of each state.  Result: new fields, optional next state,
error flag (a non-nil Go error), and the observable outputs. -/
def enterState (dpm : List Nat → Nat) (o : Oracle) (s : SName) (pe : PE) :
    Except GoPanic (PE × Option SName × Bool × List EngineOut) :=
  match s with
  | .noPD =>
    let pe := { pe with pdoBuf := pe.pdoBuf.set 0 pe.v5PDO }
    let rdo := dpm (pe.pdoBuf.take 1)
    match alertPCCB pe (rdo ≠ 0) with
    | .error p => .error p
    | .ok d => .ok (pe, none, false, [.callback d])
  | .sinkStartup =>
    let pe := { pe with nextTxID := 0, lastRxID := 8, explicitContract := false }
    match alertPCCB pe false with
    | .error p => .error p
    | .ok d => .ok (pe, some .sinkDiscovery, !o.initOk, [.enterStartup, .callback d])
  | .sinkDiscovery => .ok (pe, none, false, [])
  | .sinkWaitForCap => .ok ({ pe with timer := some 620 }, none, false, [])
  | .sinkEvalCap =>
    let l := pe.sourceCapMsg.DataObjectCount
    let buf := pe.sourceCapMsg.Data.take l ++ pe.pdoBuf.drop l
    let pe := { pe with pdoBuf := buf, requestDO := dpm (buf.take l) }
    .ok (pe, some .sinkSelectCap, false, [])
  | .sinkSelectCap =>
    let rdo := if pe.requestDO = 0 then defaultRDO else pe.requestDO
    let r := sendRDO pe rdo
    if o.txOk then .ok ({ r.1 with timer := some 32 }, none, false, [.txMsg r.2])
    else .ok (r.1, none, true, [.txMsg r.2])
  | .sinkTransitionSink => .ok ({ pe with timer := some 550 }, none, false, [])
  | .sinkReady =>
    if pe.waitingOnSource then .ok ({ pe with timer := some 100 }, none, false, [])
    else
      match ppsNegotiated pe with
      | .error p => .error p
      | .ok b => .ok (if b then { pe with timer := some 10000 } else pe, none, false, [])
  | .sinkHardReset => .ok (pe, some .sinkStartup, !o.resetOk, [])

/-- `Process` actions of each state (tcpe.go revision; all Go `Process`
functions return a nil error, but `stateSinkTransitionSink` can panic inside
`alertPCCB`).  States whose `Process` is nil are never waited in, because
their `Enter` always yields a next state; they are embedded as no-ops. -/
def processState (s : SName) (pe : PE) (m : Message) (e : Nat) :
    Except GoPanic (PE × Option SName × List EngineOut) :=
  match s with
  | .sinkDiscovery =>
    if e = 32 then .ok (pe, some .sinkWaitForCap, []) else .ok (pe, none, [])
  | .sinkWaitForCap =>
    if e = 256 then
      if 0 < FixedSupplyPDO.MaxCurrent pe.v5PDO then .ok (pe, some .noPD, [])
      else .ok (pe, some .sinkHardReset, [])
    else if e = 128 ∧ m.IsData ∧ Message.getType m = 1 then
      let r := Message.Revision m
      let tpl := Message.SetRevision pe.msgTpl (if r < 2 then r else 2)
      .ok ({ pe with sourceCapMsg := m, msgTpl := tpl }, some .sinkEvalCap, [])
    else .ok (pe, none, [])
  | .sinkSelectCap =>
    if e = 256 then .ok (pe, some .sinkHardReset, [])
    else if e = 128 ∧ ¬m.IsData then
      if Message.getType m = 3 then
        .ok ({ pe with waitingOnSource := false, explicitContract := true },
          some .sinkTransitionSink, [])
      else if Message.getType m = 4 then .ok (pe, some .sinkHardReset, [])
      else if Message.getType m = 12 then
        if pe.explicitContract then
          .ok ({ pe with waitingOnSource := true }, some .sinkReady, [])
        else .ok ({ pe with waitingOnSource := true }, some .sinkWaitForCap, [])
      else .ok (pe, none, [])
    else .ok (pe, none, [])
  | .sinkTransitionSink =>
    if e = 256 then .ok (pe, some .sinkHardReset, [])
    else if e = 128 ∧ ¬m.IsData ∧ Message.getType m = 6 then
      if pe.requestDO ≠ 0 then
        match alertPCCB pe true with
        | .error p => .error p
        | .ok d => .ok (pe, some .sinkReady, [.callback d])
      else .ok (pe, some .sinkReady, [])
    else .ok (pe, none, [])
  | .sinkReady =>
    if e = 256 then .ok (pe, some .sinkSelectCap, [])
    else if e = 128 ∧ m.IsData ∧ Message.getType m = 1 then
      .ok ({ pe with sourceCapMsg := m }, some .sinkEvalCap, [])
    else .ok (pe, none, [])
  | _ => .ok (pe, none, [])

/-- Engine configuration: current state, the `entering` flag, and the fields. -/
structure Config where
  cur : SName
  entering : Bool
  pe : PE
deriving DecidableEq

/-- Tail of the loop body: a non-nil error forces SinkHardReset; a non-nil
next state is entered (no state defines an `Exit` hook). -/
def applyNext (cur : SName) (pe : PE) (next : Option SName) (err : Bool) : Config :=
  match if err then some SName.sinkHardReset else next with
  | some n => ⟨n, true, pe⟩
  | none => ⟨cur, false, pe⟩

/-- One iteration of `PolicyEngine.Run`'s loop. -/
def step (dpm : List Nat → Nat) (cfg : Config) (o : Oracle) :
    List EngineOut × Except GoPanic Config :=
  if cfg.entering then
    let pe := { cfg.pe with timer := none }
    match enterState dpm o cfg.cur pe with
    | .error p => ([], .error p)
    | .ok (pe', next, err, outs) => (outs, .ok (applyNext cfg.cur pe' next err))
  else
    match o.alertRes with
    | .error _ => ([], .ok (applyNext cfg.cur cfg.pe none true))
    | .ok ev =>
      let es0 := cfg.pe.events ||| ev % 65536
      let pr := Event.Pop es0
      let e := pr.1
      let pe := { cfg.pe with events := pr.2 }
      if e = 0 then
        if pe.timer.isSome ∧ o.timerFired then
          let pe := { pe with timer := none }
          match processState cfg.cur pe emptyMessage 256 with
          | .error p => ([], .error p)
          | .ok (pe', next, outs) => (outs, .ok (applyNext cfg.cur pe' next false))
        else ([], .ok ⟨cfg.cur, false, pe⟩)
      else if e = 4 then
        ([], .ok ⟨cfg.cur, false, { pe with v5PDO := FixedSupplyPDO.SetMaxCurrent pe.v5PDO 500 }⟩)
      else if e = 8 then
        ([], .ok ⟨cfg.cur, false, { pe with v5PDO := FixedSupplyPDO.SetMaxCurrent pe.v5PDO 1500 }⟩)
      else if e = 16 then
        ([], .ok ⟨cfg.cur, false, { pe with v5PDO := FixedSupplyPDO.SetMaxCurrent pe.v5PDO 3000 }⟩)
      else if e = 64 ∨ e = 1 then ([], .ok (applyNext cfg.cur pe (some .sinkStartup) false))
      else if e = 2 then ([], .ok (applyNext cfg.cur pe (some .sinkHardReset) false))
      else if e = 128 then
        match peRx pe.lastRxID o.rxq with
        | some (m, newLast, _) =>
          let pe := { pe with lastRxID := newLast }
          match processState cfg.cur pe m 128 with
          | .error p => ([], .error p)
          | .ok (pe', next, outs) =>
            (outs, .ok (applyNext cfg.cur { pe' with events := pe'.events ||| 128 } next false))
        | none =>
          if o.rxEmptyAtEnd then ([], .ok ⟨cfg.cur, false, pe⟩)
          else ([], .ok (applyNext cfg.cur pe none true))
      else
        match processState cfg.cur pe emptyMessage e with
        | .error p => ([], .error p)
        | .ok (pe', next, outs) => (outs, .ok (applyNext cfg.cur pe' next false))

/-- Fold `step` over a list of per-iteration oracles, accumulating outputs
and stopping at the first Go panic. -/
def run (dpm : List Nat → Nat) (cfg : Config) : List Oracle →
    List EngineOut × Except GoPanic Config
  | [] => ([], .ok cfg)
  | o :: os =>
    match step dpm cfg o with
    | (outs, .error p) => (outs, .error p)
    | (outs, .ok cfg') =>
      let r := run dpm cfg' os
      (outs ++ r.1, r.2)

/-- The message template built by `tcpe.New` (sink / UFP / not extended). -/
def newMsgTpl : Message :=
  Message.SetExtended (Message.SetDataRole (Message.SetPowerRole emptyMessage 0) 0) false

/-- The engine fields as initialized by `tcpe.New`. -/
def newPE : PE where
  timer := none
  sourceCapMsg := emptyMessage
  requestDO := 0
  msgTpl := newMsgTpl
  pdoBuf := List.replicate 7 0
  explicitContract := false
  waitingOnSource := false
  events := 0
  v5PDO := FixedSupplyPDO.SetVoltage 0 5000
  nextTxID := 0
  lastRxID := 0

/-- `Run` starts in SinkStartup with `entering = true`. -/
def initConfig : Config := ⟨.sinkStartup, true, newPE⟩

/-- The empty Accept message of claim C7: control type Accept (3), revision
2.0, power role sink, data role UFP, message ID 0, no data objects. -/
def acceptMsg : Message :=
  Message.SetID
    (Message.SetDataObjectCount
      (Message.SetRevision
        (Message.SetPowerRole (Message.SetDataRole (Message.SetExtended
          (Message.SetType emptyMessage 3) false) 0) 0) 1) 0) 0

/-- The nine engine events, highest priority first. -/
def eventPriorityList : List Nat := [1, 2, 4, 8, 16, 32, 64, 128, 256]

/-- Oracle for an idle loop iteration: no events, empty rx queue, timers
quiet, all port-controller calls succeed. -/
def idleOracle : Oracle := ⟨.ok 0, [], true, false, true, true, true⟩

/-- The DPM of scenario C1: a CV policy accepting 5 V at up to 1.5 A. -/
def dpmC1 : List Nat → Nat := CVPolicy.EvaluateCapabilities ⟨4000, 6000, 1500, false, false⟩

/-- The event trace of scenario C1: Attached, then Power1A5, then the
`tSinkWaitCap` timeout with no SourceCap received. -/
def oracsC1 : List Oracle :=
  [idleOracle,                                -- enter SinkStartup
   idleOracle,                                -- enter SinkDiscovery (nil Enter)
   { idleOracle with alertRes := .ok 32 },    -- Alert reports Attached
   idleOracle,                                -- enter SinkWaitForCapabilities
   { idleOracle with alertRes := .ok 8 },     -- Alert reports Power1A5
   { idleOracle with timerFired := true },    -- tSinkWaitCap expires
   idleOracle]                                -- enter SinkNoPD

/-! ### Transmit-ID sequencing (claim C4)

`txSeqOk n outs` states that, reading the output trace left to right with a
running tx counter `n` (reset to 0 at every SinkStartup entry), every
transmitted message carries ID `counter % 8`; `cntAfter` is the counter value
after a trace. -/
def cntAfter : Nat → List EngineOut → Nat
  | n, [] => n
  | _, .enterStartup :: r => cntAfter 0 r
  | n, .txMsg _ :: r => cntAfter (n + 1) r
  | n, .callback _ :: r => cntAfter n r

def txSeqOk : Nat → List EngineOut → Prop
  | _, [] => True
  | _, .enterStartup :: r => txSeqOk 0 r
  | n, .txMsg m :: r => Message.ID m = n % 8 ∧ txSeqOk (n + 1) r
  | n, .callback _ :: r => txSeqOk n r

/-- the three-field fixed-RDO write performed by the CV/CP fixed branch. -/
def updFixedRDO (r pos cur : Nat) : Nat :=
  RequestDO.SetFixedOperatingCurrent
    (RequestDO.SetFixedMaxOperatingCurrent (RequestDO.SetSelectedObjectPosition r pos) cur) cur

/-- the three-field PPS-RDO write performed by the CV/CC/CP PPS branch. -/
def updPPSRDO (r pos v cc : Nat) : Nat :=
  RequestDO.SetPPSOutputCurrent
    (RequestDO.SetPPSOutputVoltage (RequestDO.SetSelectedObjectPosition r pos) v) cc

/-- Fixed-branch qualification per the CV policy (type fixed, voltage in
range, max current sufficient). -/
def QFix (c : CVPolicy) (p : Nat) : Prop :=
  PDO.getType p = 0 ∧ c.MinVoltage ≤ FixedSupplyPDO.Voltage p ∧
    FixedSupplyPDO.Voltage p ≤ c.MaxVoltage ∧ c.Current ≤ FixedSupplyPDO.MaxCurrent p

/-- PPS-branch qualification per the CV policy: clamped voltage range
non-empty and max current at least `pm`. -/
def QPps (c : CVPolicy) (pm p : Nat) : Prop :=
  PDO.getType p = 7 ∧
    max c.MinVoltage (PPSPDO.MinVoltage p) ≤ min c.MaxVoltage (PPSPDO.MaxVoltage p) ∧
    pm ≤ PPSPDO.MaxCurrent p

/-- The fixed component of the CV loop. -/
def cvFixedFold (c : CVPolicy) : Nat → (Nat × Nat) → List Nat → (Nat × Nat)
  | _, bf, [] => bf
  | i, bf, p :: rest =>
    if PDO.getType p = 0 then cvFixedFold c (i + 1) (cvFixedUpdate c i p bf) rest
    else cvFixedFold c (i + 1) bf rest

/-- The PPS component of the CV loop. -/
def cvPPSFold (c : CVPolicy) (pm : Nat) : Nat → (Nat × Nat) → List Nat → (Nat × Nat)
  | _, bp, [] => bp
  | i, bp, p :: rest =>
    if PDO.getType p = 7 then cvPPSFold c pm (i + 1) (cvPPSUpdate c pm i p bp) rest
    else cvPPSFold c pm (i + 1) bp rest

/-! ## Theorems -/

example : Event.Pop 0 = (0, 0) := by decide

example : Event.Pop (32 ||| 8) = (8, 32) := by decide

example : Message.ID (Message.SetID emptyMessage 5) = 5 := by decide

example : FixedSupplyPDO.Voltage (FixedSupplyPDO.SetVoltage 0 5000) = 5000 := by decide

example : PDO.getType ((3 <<< 30) : Nat) = 7 := by decide

/-! ## Bit-field helper lemmas

Every Go setter has the shape `(o &&& (D ^^^ (M <<< s))) ||| (t <<< s)` for a
width-`w` mask `M = 2^w - 1`, full-word mask `D = 2^n - 1` and a payload
`t < 2^w`.  The three lemmas below give the value read back from the field,
the preservation of all other bits, and the independence of a disjoint
field read. -/
theorem get_of_set (n s w o t : Nat) (hsw : s + w ≤ n) (ht : t < 2 ^ w) :
    (((o &&& ((2 ^ n - 1) ^^^ ((2 ^ w - 1) <<< s))) ||| (t <<< s)) >>> s) &&& (2 ^ w - 1) = t := by
  conv_rhs => rw [← Nat.and_pow_two_sub_one_of_lt_two_pow ht]
  apply Nat.eq_of_testBit_eq
  intro i
  simp only [Nat.testBit_and, Nat.testBit_shiftRight, Nat.testBit_or, Nat.testBit_xor,
    Nat.testBit_shiftLeft, Nat.testBit_two_pow_sub_one, ge_iff_le, decide_eq_true_eq]
  by_cases hi : i < w
  · have h1 : s + i < n := by omega
    have h2 : s ≤ s + i := by omega
    have h3 : s + i - s = i := by omega
    simp [h1, h2, h3, hi]
  · have h4 : t.testBit i = false :=
      Nat.testBit_lt_two_pow (lt_of_lt_of_le ht (Nat.pow_le_pow_right (by norm_num) (by omega)))
    by_cases h2 : s ≤ s + i
    · simp [hi, Nat.add_sub_cancel_left, h4]
    · omega

theorem frame_of_set (n s w o t : Nat) (hsw : s + w ≤ n) (ht : t < 2 ^ w) :
    ((o &&& ((2 ^ n - 1) ^^^ ((2 ^ w - 1) <<< s))) ||| (t <<< s)) &&&
        ((2 ^ n - 1) ^^^ ((2 ^ w - 1) <<< s)) =
      o &&& ((2 ^ n - 1) ^^^ ((2 ^ w - 1) <<< s)) := by
  apply Nat.eq_of_testBit_eq
  intro i
  simp only [Nat.testBit_and, Nat.testBit_or, Nat.testBit_xor, Nat.testBit_shiftLeft,
    Nat.testBit_two_pow_sub_one, ge_iff_le, decide_eq_true_eq]
  by_cases hs : s ≤ i
  · by_cases hiw : i - s < w
    · simp [hs, hiw, show i < n by omega]
    · have h4 : t.testBit (i - s) = false :=
        Nat.testBit_lt_two_pow (lt_of_lt_of_le ht (Nat.pow_le_pow_right (by norm_num) (by omega)))
      simp only [hs, hiw, h4, decide_eq_true_eq]
      cases o.testBit i <;> simp
  · simp only [hs, decide_eq_true_eq]
    cases o.testBit i <;> simp

theorem get_other_of_set (n s w s1 w1 o t : Nat) (hsw : s + w ≤ n) (ht : t < 2 ^ w)
    (h1n : s1 + w1 ≤ n) (hdisj : s1 + w1 ≤ s ∨ s + w ≤ s1) :
    (((o &&& ((2 ^ n - 1) ^^^ ((2 ^ w - 1) <<< s))) ||| (t <<< s)) >>> s1) &&& (2 ^ w1 - 1) =
      (o >>> s1) &&& (2 ^ w1 - 1) := by
  apply Nat.eq_of_testBit_eq
  intro i
  simp only [Nat.testBit_and, Nat.testBit_shiftRight, Nat.testBit_or, Nat.testBit_xor,
    Nat.testBit_shiftLeft, Nat.testBit_two_pow_sub_one, ge_iff_le, decide_eq_true_eq]
  by_cases hi : i < w1
  · have hn : s1 + i < n := by omega
    have hout : ¬(s ≤ s1 + i ∧ s1 + i - s < w) := by omega
    by_cases hs : s ≤ s1 + i
    · have h4 : t.testBit (s1 + i - s) = false :=
        Nat.testBit_lt_two_pow (lt_of_lt_of_le ht (Nat.pow_le_pow_right (by norm_num) (by omega)))
      simp only [hi, hn, hs, h4, decide_eq_true_eq]
      cases o.testBit (s1 + i) <;> simp <;> omega
    · simp [hi, hn, hs]
  · simp [hi]

example :
    CVPolicy.EvaluateCapabilities ⟨4000, 6000, 1500, false, false⟩
      [FixedSupplyPDO.SetMaxCurrent (FixedSupplyPDO.SetVoltage 0 5000) 1500] ≠ 0 := by decide

example : CPPolicy.EvaluateCapabilities ⟨0, 0, 0, false, false⟩ [0] = .error .divideByZero := rfl

/-! ## Claim theorems -/
/-- Claim C2: for every `FixedSupplyPDO` value, every voltage that is a
multiple of 50 in [0, 51150] mV and every current that is a multiple of 10 in
[0, 10230] mA, `SetVoltage` then `SetMaxCurrent` followed by `Voltage` and
`MaxCurrent` reads back exactly the pair that was stored. -/
theorem claim_C2_fixed_pdo_roundtrip (o v c : Nat) (ho : o < 4294967296)
    (hv : 50 ∣ v) (hv2 : v ≤ 51150) (hc : 10 ∣ c) (hc2 : c ≤ 10230) :
    FixedSupplyPDO.Voltage
        (FixedSupplyPDO.SetMaxCurrent (FixedSupplyPDO.SetVoltage o v) c) = v ∧
      FixedSupplyPDO.MaxCurrent
        (FixedSupplyPDO.SetMaxCurrent (FixedSupplyPDO.SetVoltage o v) c) = c := by
  obtain ⟨a, rfl⟩ := hv
  obtain ⟨b, rfl⟩ := hc
  have ha : a < 2 ^ 10 := by omega
  have hb : b < 2 ^ 10 := by omega
  have n10 : (1023 : Nat) = 2 ^ 10 - 1 := by norm_num
  have n32 : (4294967295 : Nat) = 2 ^ 32 - 1 := by norm_num
  unfold FixedSupplyPDO.Voltage FixedSupplyPDO.MaxCurrent
    FixedSupplyPDO.SetMaxCurrent FixedSupplyPDO.SetVoltage
  rw [Nat.mod_eq_of_lt (show 50 * a < 65536 by omega),
    Nat.mod_eq_of_lt (show 10 * b < 65536 by omega),
    Nat.mul_div_cancel_left a (by norm_num : (0:Nat) < 50),
    Nat.mul_div_cancel_left b (by norm_num : (0:Nat) < 10),
    n10, n32, Nat.and_pow_two_sub_one_of_lt_two_pow ha, Nat.and_pow_two_sub_one_of_lt_two_pow hb]
  constructor
  · have h2 := get_other_of_set 32 0 10 10 10
      ((o &&& (2 ^ 32 - 1 ^^^ (2 ^ 10 - 1) <<< 10)) ||| a <<< 10) b
      (by omega) hb (by omega) (Or.inr (by omega))
    rw [Nat.shiftLeft_zero, Nat.shiftLeft_zero] at h2
    rw [h2, get_of_set 32 10 10 o a (by omega) ha]
    omega
  · have h := get_of_set 32 0 10 ((o &&& (2 ^ 32 - 1 ^^^ (2 ^ 10 - 1) <<< 10)) ||| a <<< 10) b
      (by omega) hb
    rw [Nat.shiftLeft_zero, Nat.shiftLeft_zero, Nat.shiftRight_zero] at h
    rw [h]
    omega

/-- Witness for C2 at a concrete PDO value, 9 V and 3 A. -/
theorem claim_C2_witness :
    FixedSupplyPDO.Voltage
        (FixedSupplyPDO.SetMaxCurrent (FixedSupplyPDO.SetVoltage 305419896 9000) 3000) = 9000 ∧
      FixedSupplyPDO.MaxCurrent
        (FixedSupplyPDO.SetMaxCurrent (FixedSupplyPDO.SetVoltage 305419896 9000) 3000) = 3000 :=
  claim_C2_fixed_pdo_roundtrip 305419896 9000 3000 (by norm_num) (by norm_num) (by norm_num)
    (by norm_num) (by norm_num)

/-- Claim C3: in SinkSelectCapabilities, a received control message of type
Reject moves the engine to SinkHardReset (in particular not to SinkReady and
not to SinkWaitForCapabilities), leaving the fields untouched. -/
theorem claim_C3_reject_hard_reset (pe : PE) (m : Message)
    (hc : m.DataObjectCount = 0) (ht : Message.getType m = 4) :
    processState .sinkSelectCap pe m 128 = .ok (pe, some .sinkHardReset, []) := by
  simp [processState, Message.IsData, hc, ht]

/-- Witness for C3: a concrete Reject control message in a concrete state. -/
theorem claim_C3_witness :
    processState .sinkSelectCap newPE (Message.SetType emptyMessage 4) 128 =
      .ok (newPE, some .sinkHardReset, []) :=
  claim_C3_reject_hard_reset newPE (Message.SetType emptyMessage 4) (by decide) (by decide)

/-- Counterexample to claim C7 as stated: the empty Accept message has header
0x0043, not 0x0643 (0x0643 would encode message ID 3), and `ToBytes` writes
`43 00`, not `43 06`. -/
theorem claim_C7_counterexample :
    ¬(acceptMsg.Header = 1603 ∧ acceptMsg.ToBytes.1 = [67, 6]) := by decide

/-- Amended claim C7: the empty Accept message (control, rev 2.0, sink/UFP,
ID 0) yields header 0x0043 and serializes to exactly the bytes `43 00`,
with 2 bytes written. -/
theorem claim_C7_amended :
    acceptMsg.Header = 67 ∧ acceptMsg.ToBytes.1 = [67, 0] ∧ acceptMsg.ToBytes.2 = 2 := by decide

set_option maxRecDepth 4096 in
/-- Claim C9: `Pop` on an empty set returns `EventNone` and leaves the set
empty; on a non-empty set of the nine engine events it returns the pending
event of highest priority (ResetReceived, SendReset, Power0A5, Power1A5,
Power3A0, Attached, Detached, Rx, TimerTimeout) and clears exactly that
event, leaving every other pending event set. -/
theorem claim_C9_event_pop :
    Event.Pop 0 = (0, 0) ∧
      ∀ e, e < 512 → e ≠ 0 →
        eventPriorityList.find? (fun v => Event.Has e v) = some (Event.Pop e).1 ∧
          ∀ v ∈ eventPriorityList,
            Event.Has (Event.Pop e).2 v = (Event.Has e v && !(v == (Event.Pop e).1)) := by
  decide

/-- Witness for C9 at the set {SendReset, Attached, TimerTimeout}. -/
theorem claim_C9_witness :
    eventPriorityList.find? (fun v => Event.Has (2 ||| 32 ||| 256) v) =
        some (Event.Pop (2 ||| 32 ||| 256)).1 ∧
      ∀ v ∈ eventPriorityList,
        Event.Has (Event.Pop (2 ||| 32 ||| 256)).2 v =
          (Event.Has (2 ||| 32 ||| 256) v && !(v == (Event.Pop (2 ||| 32 ||| 256)).1)) :=
  claim_C9_event_pop.2 (2 ||| 32 ||| 256) (by decide) (by decide)

/-! ### Frame properties of the pdmsg setters (claim C6)

`frame16` / `frame32` specialize `frame_of_set` to the 16-bit header and the
32-bit data objects; one instance lemma follows for every setter. -/
theorem frame16 (s w h t : Nat) (hsw : s + w ≤ 16) (ht : t < 2 ^ w) :
    ((h &&& (65535 ^^^ ((2 ^ w - 1) <<< s))) ||| (t <<< s)) &&& (65535 ^^^ ((2 ^ w - 1) <<< s)) =
      h &&& (65535 ^^^ ((2 ^ w - 1) <<< s)) := by
  have e : (65535 : Nat) = 2 ^ 16 - 1 := by norm_num
  rw [e]; exact frame_of_set 16 s w h t hsw ht

theorem frame32 (s w o t : Nat) (hsw : s + w ≤ 32) (ht : t < 2 ^ w) :
    ((o &&& (4294967295 ^^^ ((2 ^ w - 1) <<< s))) ||| (t <<< s)) &&&
        (4294967295 ^^^ ((2 ^ w - 1) <<< s)) =
      o &&& (4294967295 ^^^ ((2 ^ w - 1) <<< s)) := by
  have e : (4294967295 : Nat) = 2 ^ 32 - 1 := by norm_num
  rw [e]; exact frame_of_set 32 s w o t hsw ht

theorem frame_SetExtended (m : Message) (e : Bool) :
    (Message.SetExtended m e).Header &&& (65535 ^^^ (1 <<< 15)) =
      m.Header &&& (65535 ^^^ (1 <<< 15)) := by
  unfold Message.SetExtended
  have e1 : (1 : Nat) = 2 ^ 1 - 1 := by norm_num
  cases e
  · simp only [Bool.false_eq_true, if_false]
    rw [show (0 : Nat) = (0 : Nat) <<< 15 by rw [Nat.zero_shiftLeft]]
    conv_lhs => rw [e1]
    conv_rhs => rw [e1]
    exact frame16 15 1 m.Header 0 (by norm_num) (by norm_num)
  · simp only [if_true]
    conv_lhs => rw [e1]
    conv_rhs => rw [e1]
    exact frame16 15 1 m.Header 1 (by norm_num) (by norm_num)

theorem frame_SetID (m : Message) (id : Nat) (hid : id < 8) :
    (Message.SetID m id).Header &&& (65535 ^^^ (7 <<< 9)) =
      m.Header &&& (65535 ^^^ (7 <<< 9)) := by
  unfold Message.SetID
  rw [Nat.mod_eq_of_lt (show id < 256 by omega),
    Nat.mod_eq_of_lt (show id <<< 9 < 65536 by rw [Nat.shiftLeft_eq]; omega)]
  have e7 : (7 : Nat) = 2 ^ 3 - 1 := by norm_num
  rw [e7]
  exact frame16 9 3 m.Header id (by norm_num) (by omega)

theorem frame_SetDataObjectCount (m : Message) (n : Nat) (hn : n < 8) :
    (Message.SetDataObjectCount m n).Header &&& (65535 ^^^ (7 <<< 12)) =
      m.Header &&& (65535 ^^^ (7 <<< 12)) := by
  unfold Message.SetDataObjectCount
  rw [Nat.mod_eq_of_lt (show n < 256 by omega),
    Nat.mod_eq_of_lt (show n <<< 12 < 65536 by rw [Nat.shiftLeft_eq]; omega)]
  have e7 : (7 : Nat) = 2 ^ 3 - 1 := by norm_num
  rw [e7]
  exact frame16 12 3 m.Header n (by norm_num) (by omega)

theorem frame_SetType (m : Message) (t : Nat) (ht : t < 32) :
    (Message.SetType m t).Header &&& (65535 ^^^ 31) = m.Header &&& (65535 ^^^ 31) := by
  unfold Message.SetType
  rw [Nat.mod_eq_of_lt (show t < 256 by omega)]
  have e5 : (31 : Nat) = 2 ^ 5 - 1 := by norm_num
  rw [e5]
  have h := frame16 0 5 m.Header t (by norm_num) (by omega)
  simpa using h

theorem frame_SetRevision (m : Message) (r : Nat) :
    (Message.SetRevision m r).Header &&& (65535 ^^^ (3 <<< 6)) =
      m.Header &&& (65535 ^^^ (3 <<< 6)) := by
  unfold Message.SetRevision
  have he : (r <<< 6) % 256 = (r % 4) <<< 6 := by
    rw [Nat.shiftLeft_eq, Nat.shiftLeft_eq, show (256 : Nat) = 4 * 2 ^ 6 by norm_num,
      Nat.mul_mod_mul_right]
  rw [he]
  have e3 : (3 : Nat) = 2 ^ 2 - 1 := by norm_num
  rw [e3]
  exact frame16 6 2 m.Header (r % 4) (by norm_num) (by omega)

theorem frame_SetPowerRole (m : Message) (r : Nat) (hr : r < 2) :
    (Message.SetPowerRole m r).Header &&& (65535 ^^^ (1 <<< 8)) =
      m.Header &&& (65535 ^^^ (1 <<< 8)) := by
  unfold Message.SetPowerRole
  rw [Nat.mod_eq_of_lt (show r < 256 by omega),
    Nat.mod_eq_of_lt (show r <<< 8 < 65536 by rw [Nat.shiftLeft_eq]; omega)]
  have e1 : (1 : Nat) = 2 ^ 1 - 1 := by norm_num
  conv_lhs => rw [e1]
  conv_rhs => rw [e1]
  exact frame16 8 1 m.Header r (by norm_num) (by omega)

theorem frame_SetDataRole (m : Message) (r : Nat) (hr : r < 2) :
    (Message.SetDataRole m r).Header &&& (65535 ^^^ (1 <<< 5)) =
      m.Header &&& (65535 ^^^ (1 <<< 5)) := by
  unfold Message.SetDataRole
  rw [Nat.mod_eq_of_lt (show r <<< 5 < 256 by rw [Nat.shiftLeft_eq]; omega)]
  have e1 : (1 : Nat) = 2 ^ 1 - 1 := by norm_num
  conv_lhs => rw [e1]
  conv_rhs => rw [e1]
  exact frame16 5 1 m.Header r (by norm_num) (by omega)

theorem frame_SetVoltage (o v : Nat) :
    FixedSupplyPDO.SetVoltage o v &&& (4294967295 ^^^ (1023 <<< 10)) =
      o &&& (4294967295 ^^^ (1023 <<< 10)) := by
  unfold FixedSupplyPDO.SetVoltage
  have e10 : (1023 : Nat) = 2 ^ 10 - 1 := by norm_num
  rw [e10]
  exact frame32 10 10 o _ (by norm_num) (lt_of_le_of_lt Nat.and_le_right (by norm_num))

theorem frame_SetMaxCurrentFixed (o v : Nat) :
    FixedSupplyPDO.SetMaxCurrent o v &&& (4294967295 ^^^ 1023) =
      o &&& (4294967295 ^^^ 1023) := by
  unfold FixedSupplyPDO.SetMaxCurrent
  have e10 : (1023 : Nat) = 2 ^ 10 - 1 := by norm_num
  rw [e10]
  have h := frame32 0 10 o ((v % 65536) / 10 &&& (2 ^ 10 - 1)) (by norm_num)
    (lt_of_le_of_lt Nat.and_le_right (by norm_num))
  simpa using h

theorem frame_SetMinVoltage (o v : Nat) :
    PPSPDO.SetMinVoltage o v &&& (4294967295 ^^^ (255 <<< 8)) =
      o &&& (4294967295 ^^^ (255 <<< 8)) := by
  unfold PPSPDO.SetMinVoltage
  have e8 : (255 : Nat) = 2 ^ 8 - 1 := by norm_num
  rw [e8]
  exact frame32 8 8 o _ (by norm_num) (lt_of_le_of_lt Nat.and_le_right (by norm_num))

theorem frame_SetMaxVoltagePPS (o v : Nat) :
    PPSPDO.SetMaxVoltage o v &&& (4294967295 ^^^ (255 <<< 17)) =
      o &&& (4294967295 ^^^ (255 <<< 17)) := by
  unfold PPSPDO.SetMaxVoltage
  have e8 : (255 : Nat) = 2 ^ 8 - 1 := by norm_num
  rw [e8]
  exact frame32 17 8 o _ (by norm_num) (lt_of_le_of_lt Nat.and_le_right (by norm_num))

theorem frame_SetMaxCurrentPPS (o c : Nat) :
    PPSPDO.SetMaxCurrent o c &&& (4294967295 ^^^ 255) = o &&& (4294967295 ^^^ 255) := by
  unfold PPSPDO.SetMaxCurrent
  have e8 : (255 : Nat) = 2 ^ 8 - 1 := by norm_num
  rw [e8]
  have h := frame32 0 8 o ((c % 65536) / 50 &&& 127) (by norm_num)
    (lt_of_le_of_lt Nat.and_le_right (by norm_num))
  simpa using h

theorem frame_SetSelectedObjectPosition (o p : Nat) :
    RequestDO.SetSelectedObjectPosition o p &&& (4294967295 ^^^ (15 <<< 28)) =
      o &&& (4294967295 ^^^ (15 <<< 28)) := by
  unfold RequestDO.SetSelectedObjectPosition
  have he : ((p % 256) <<< 28) % 4294967296 = (p % 16) <<< 28 := by
    rw [Nat.shiftLeft_eq, Nat.shiftLeft_eq,
      show (4294967296 : Nat) = 16 * 268435456 by norm_num, Nat.mul_mod_mul_right,
      Nat.mod_mod_of_dvd _ (by norm_num)]
  rw [he]
  have e15 : (15 : Nat) = 2 ^ 4 - 1 := by norm_num
  rw [e15]
  exact frame32 28 4 o _ (by norm_num) (by omega)

theorem frame_SetCapabilityMismatch (o : Nat) (b : Bool) :
    RequestDO.SetCapabilityMismatch o b &&& (4294967295 ^^^ (1 <<< 26)) =
      o &&& (4294967295 ^^^ (1 <<< 26)) := by
  unfold RequestDO.SetCapabilityMismatch
  have e1 : (1 : Nat) = 2 ^ 1 - 1 := by norm_num
  cases b
  · simp only [Bool.false_eq_true, if_false]
    rw [show (0 : Nat) = (0 : Nat) <<< 26 by rw [Nat.zero_shiftLeft]]
    conv_lhs => rw [e1]
    conv_rhs => rw [e1]
    exact frame32 26 1 o 0 (by norm_num) (by norm_num)
  · simp only [if_true]
    conv_lhs => rw [e1]
    conv_rhs => rw [e1]
    exact frame32 26 1 o 1 (by norm_num) (by norm_num)

theorem frame_SetFixedOperatingCurrent (o c : Nat) :
    RequestDO.SetFixedOperatingCurrent o c &&& (4294967295 ^^^ (1023 <<< 10)) =
      o &&& (4294967295 ^^^ (1023 <<< 10)) := by
  unfold RequestDO.SetFixedOperatingCurrent
  have e10 : (1023 : Nat) = 2 ^ 10 - 1 := by norm_num
  rw [e10]
  exact frame32 10 10 o _ (by norm_num) (lt_of_le_of_lt Nat.and_le_right (by norm_num))

theorem frame_SetFixedMaxOperatingCurrent (o c : Nat) :
    RequestDO.SetFixedMaxOperatingCurrent o c &&& (4294967295 ^^^ 1023) =
      o &&& (4294967295 ^^^ 1023) := by
  unfold RequestDO.SetFixedMaxOperatingCurrent
  have e10 : (1023 : Nat) = 2 ^ 10 - 1 := by norm_num
  rw [e10]
  have h := frame32 0 10 o ((c % 65536) / 10 &&& (2 ^ 10 - 1)) (by norm_num)
    (lt_of_le_of_lt Nat.and_le_right (by norm_num))
  simpa using h

theorem frame_SetPPSOutputVoltage (o v : Nat) :
    RequestDO.SetPPSOutputVoltage o v &&& (4294967295 ^^^ (4095 <<< 9)) =
      o &&& (4294967295 ^^^ (4095 <<< 9)) := by
  unfold RequestDO.SetPPSOutputVoltage
  have e12 : (4095 : Nat) = 2 ^ 12 - 1 := by norm_num
  rw [e12]
  exact frame32 9 12 o _ (by norm_num) (lt_of_le_of_lt Nat.and_le_right (by norm_num))

theorem frame_SetPPSOutputCurrent (o v : Nat) :
    RequestDO.SetPPSOutputCurrent o v &&& (4294967295 ^^^ 127) =
      o &&& (4294967295 ^^^ 127) := by
  unfold RequestDO.SetPPSOutputCurrent
  have e7 : (127 : Nat) = 2 ^ 7 - 1 := by norm_num
  rw [e7]
  have h := frame32 0 7 o ((v % 65536) / 50 &&& (2 ^ 7 - 1)) (by norm_num)
    (lt_of_le_of_lt Nat.and_le_right (by norm_num))
  simpa using h

/-- Counterexample to claim C6 as stated: `PPSPDO.SetMaxCurrent` clears the
reserved bit 7 although the documented max-current field is bits 0-6, so with
prior value `0x80` and input 0 the bits outside the documented field mask
change. -/
theorem claim_C6_counterexample :
    ¬(PPSPDO.SetMaxCurrent 128 0 &&& (4294967295 ^^^ 127) =
        128 &&& (4294967295 ^^^ 127)) := by decide

/-- Amended claim C6: every pdmsg setter preserves all bits outside its
field, where (a) for `PPSPDO.SetMaxCurrent` the preserved region excludes the
additionally-cleared reserved bit 7 (the Go clear mask is bits 0-7, wider
than the documented 0-6 field), and (b) the `Message` header setters with an
unmasked input (`SetID`, `SetDataObjectCount`, `SetType`, `SetPowerRole`,
`SetDataRole`) require the input to fit the field, since an oversized input
spills into neighbouring header bits.  All other setters mask their inputs
and preserve the complement of the documented field for every input. -/
theorem claim_C6_amended :
    (∀ m e, (Message.SetExtended m e).Header &&& (65535 ^^^ (1 <<< 15)) =
      m.Header &&& (65535 ^^^ (1 <<< 15))) ∧
    (∀ m id, id < 8 → (Message.SetID m id).Header &&& (65535 ^^^ (7 <<< 9)) =
      m.Header &&& (65535 ^^^ (7 <<< 9))) ∧
    (∀ m n, n < 8 → (Message.SetDataObjectCount m n).Header &&& (65535 ^^^ (7 <<< 12)) =
      m.Header &&& (65535 ^^^ (7 <<< 12))) ∧
    (∀ m t, t < 32 → (Message.SetType m t).Header &&& (65535 ^^^ 31) =
      m.Header &&& (65535 ^^^ 31)) ∧
    (∀ m r, (Message.SetRevision m r).Header &&& (65535 ^^^ (3 <<< 6)) =
      m.Header &&& (65535 ^^^ (3 <<< 6))) ∧
    (∀ m r, r < 2 → (Message.SetPowerRole m r).Header &&& (65535 ^^^ (1 <<< 8)) =
      m.Header &&& (65535 ^^^ (1 <<< 8))) ∧
    (∀ m r, r < 2 → (Message.SetDataRole m r).Header &&& (65535 ^^^ (1 <<< 5)) =
      m.Header &&& (65535 ^^^ (1 <<< 5))) ∧
    (∀ o v, FixedSupplyPDO.SetVoltage o v &&& (4294967295 ^^^ (1023 <<< 10)) =
      o &&& (4294967295 ^^^ (1023 <<< 10))) ∧
    (∀ o v, FixedSupplyPDO.SetMaxCurrent o v &&& (4294967295 ^^^ 1023) =
      o &&& (4294967295 ^^^ 1023)) ∧
    (∀ o v, PPSPDO.SetMinVoltage o v &&& (4294967295 ^^^ (255 <<< 8)) =
      o &&& (4294967295 ^^^ (255 <<< 8))) ∧
    (∀ o v, PPSPDO.SetMaxVoltage o v &&& (4294967295 ^^^ (255 <<< 17)) =
      o &&& (4294967295 ^^^ (255 <<< 17))) ∧
    (∀ o c, PPSPDO.SetMaxCurrent o c &&& (4294967295 ^^^ 255) =
      o &&& (4294967295 ^^^ 255)) ∧
    (∀ o p, RequestDO.SetSelectedObjectPosition o p &&& (4294967295 ^^^ (15 <<< 28)) =
      o &&& (4294967295 ^^^ (15 <<< 28))) ∧
    (∀ o b, RequestDO.SetCapabilityMismatch o b &&& (4294967295 ^^^ (1 <<< 26)) =
      o &&& (4294967295 ^^^ (1 <<< 26))) ∧
    (∀ o c, RequestDO.SetFixedOperatingCurrent o c &&& (4294967295 ^^^ (1023 <<< 10)) =
      o &&& (4294967295 ^^^ (1023 <<< 10))) ∧
    (∀ o c, RequestDO.SetFixedMaxOperatingCurrent o c &&& (4294967295 ^^^ 1023) =
      o &&& (4294967295 ^^^ 1023)) ∧
    (∀ o v, RequestDO.SetPPSOutputVoltage o v &&& (4294967295 ^^^ (4095 <<< 9)) =
      o &&& (4294967295 ^^^ (4095 <<< 9))) ∧
    (∀ o v, RequestDO.SetPPSOutputCurrent o v &&& (4294967295 ^^^ 127) =
      o &&& (4294967295 ^^^ 127)) :=
  ⟨frame_SetExtended, frame_SetID, frame_SetDataObjectCount, frame_SetType,
    frame_SetRevision, frame_SetPowerRole, frame_SetDataRole, frame_SetVoltage,
    frame_SetMaxCurrentFixed, frame_SetMinVoltage, frame_SetMaxVoltagePPS,
    frame_SetMaxCurrentPPS, frame_SetSelectedObjectPosition, frame_SetCapabilityMismatch,
    frame_SetFixedOperatingCurrent, frame_SetFixedMaxOperatingCurrent,
    frame_SetPPSOutputVoltage, frame_SetPPSOutputCurrent⟩

/-- Witness for C6 at concrete values, including the hypothesis-bearing
`SetID` conjunct at `id = 5` and the PPS max-current conjunct at the
counterexample's inputs. -/
theorem claim_C6_witness :
    (Message.SetID ⟨65535, List.replicate 7 0⟩ 5).Header &&& (65535 ^^^ (7 <<< 9)) =
        (65535 : Nat) &&& (65535 ^^^ (7 <<< 9)) ∧
      PPSPDO.SetMaxCurrent 128 0 &&& (4294967295 ^^^ 255) =
        128 &&& (4294967295 ^^^ 255) :=
  ⟨claim_C6_amended.2.1 ⟨65535, List.replicate 7 0⟩ 5 (by decide),
    claim_C6_amended.2.2.2.2.2.2.2.2.2.2.2.1 128 0⟩

/-- Claim C1 is contradicted by the code: in the non-PD scenario the engine
does reach SinkNoPD with `v5PDO.maxCurrent = 1500`, but `stateNoPD.Enter`
stores the DPM's accepting RDO only in a local variable, so `alertPCCB(true)`
reads the still-empty `pe.requestDO`, computes position `0 - 1 = 255` in
uint8, and indexes `sourceCapMsg.Data[255]`: the process aborts with an
index-out-of-range panic, and no `on=true` callback is ever delivered. -/
theorem claim_C1_nonpd_scenario_aborts :
    (∃ pe, run dpmC1 initConfig (oracsC1.take 6) =
        ([.enterStartup, .callback ⟨false, 0, 0, false⟩], .ok ⟨.noPD, true, pe⟩) ∧
        FixedSupplyPDO.MaxCurrent pe.v5PDO = 1500) ∧
      run dpmC1 initConfig oracsC1 =
        ([.enterStartup, .callback ⟨false, 0, 0, false⟩], .error .indexOutOfRange) := by
  exact ⟨⟨_, rfl, by decide⟩, rfl⟩

/-- Claim C5: the engine's `rx` loop drops exactly the leading run of
messages carrying the previously-accepted ID and accepts the first message
whose ID differs, making its ID the new baseline and leaving the rest of the
queue unread; SinkStartup entry resets the baseline to the impossible ID 8,
and since every wire message ID is 3 bits (0..7), the first message received
after startup is always accepted. -/
theorem claim_C5_rx_dedup :
    (∀ last q, peRx last q =
        match q.dropWhile (fun m => Message.ID m == last) with
        | [] => none
        | m :: rest => some (m, Message.ID m, rest)) ∧
      (∀ dpm o pe, enterState dpm o .sinkStartup pe =
        .ok ({ pe with nextTxID := 0, lastRxID := 8, explicitContract := false },
          some .sinkDiscovery, !o.initOk, [.enterStartup, .callback ⟨false, 0, 0, false⟩])) ∧
      ∀ m q, Message.ID m < 8 ∧ peRx 8 (m :: q) = some (m, Message.ID m, q) := by
  refine ⟨?_, fun dpm o pe => rfl, fun m q => ⟨?_, ?_⟩⟩
  · intro last q
    induction q with
    | nil => simp [peRx]
    | cons m rest ih =>
      by_cases h : Message.ID m = last
      · simpa [peRx, h, List.dropWhile_cons] using ih
      · simp [peRx, h, List.dropWhile_cons]
  · exact lt_of_le_of_lt Nat.and_le_right (by norm_num)
  · have h : Message.ID m ≠ 8 := by
      have := Nat.and_le_right (n := m.Header >>> 9) (m := 7)
      unfold Message.ID
      omega
    simp [peRx, h]

/-- Claim C10 is contradicted by the code: `CPPolicy.EvaluateCapabilities`
divides `c.Power` by a fixed PDO's decoded voltage before any range check, so
a fixed-supply PDO whose voltage field decodes to 0 mV causes a Go run-time
panic (integer division by zero); a PPS PDO whose max current decodes to
exactly 150 mA makes the divisor `pps.MaxCurrent() - 150` zero as well. -/
theorem claim_C10_cp_divide_by_zero :
    CPPolicy.EvaluateCapabilities ⟨0, 0, 0, false, false⟩ [0] = .error .divideByZero ∧
      CPPolicy.EvaluateCapabilities ⟨0, 5000, 100, false, false⟩
        [PPSPDO.SetMaxCurrent (PPSPDO.SetMaxVoltage (3 <<< 30) 5000) 150] =
        .error .divideByZero := ⟨rfl, rfl⟩

theorem txSeqOk_append (l1 l2 : List EngineOut) (n : Nat) :
    txSeqOk n (l1 ++ l2) ↔ txSeqOk n l1 ∧ txSeqOk (cntAfter n l1) l2 := by
  induction l1 generalizing n with
  | nil => simp [txSeqOk, cntAfter]
  | cons x r ih => cases x <;> simp [txSeqOk, cntAfter, ih] <;> tauto

theorem ID_SetID (m : Message) (id : Nat) (hid : id < 8) :
    Message.ID (Message.SetID m id) = id := by
  unfold Message.ID Message.SetID
  simp only
  rw [Nat.mod_eq_of_lt (show id < 256 by omega),
    Nat.mod_eq_of_lt (show id <<< 9 < 65536 by rw [Nat.shiftLeft_eq]; omega)]
  have e7 : (7 : Nat) = 2 ^ 3 - 1 := by norm_num
  have e16 : (65535 : Nat) = 2 ^ 16 - 1 := by norm_num
  rw [e7, e16]
  exact get_of_set 16 9 3 m.Header id (by norm_num) (by omega)

theorem enter_txSeq (dpm : List Nat → Nat) (o : Oracle) (s : SName) (pe : PE) (n : Nat)
    (h : pe.nextTxID = n % 8) :
    ∀ pe' nx err outs, enterState dpm o s pe = .ok (pe', nx, err, outs) →
      txSeqOk n outs ∧ pe'.nextTxID = cntAfter n outs % 8 := by
  intro pe' nx err outs heq
  cases s <;> simp only [enterState] at heq
  case noPD =>
    cases halert : alertPCCB { pe with pdoBuf := pe.pdoBuf.set 0 pe.v5PDO }
        (dpm (({ pe with pdoBuf := pe.pdoBuf.set 0 pe.v5PDO } : PE).pdoBuf.take 1) ≠ 0) with
    | error p => rw [halert] at heq; cases heq
    | ok d =>
      rw [halert] at heq
      cases heq
      simpa [txSeqOk, cntAfter] using h
  case sinkStartup =>
    cases heq
    simp [txSeqOk, cntAfter]
  case sinkDiscovery => cases heq; simpa [txSeqOk, cntAfter] using h
  case sinkWaitForCap => cases heq; simpa [txSeqOk, cntAfter] using h
  case sinkEvalCap => cases heq; simpa [txSeqOk, cntAfter] using h
  case sinkSelectCap =>
    by_cases htx : o.txOk <;>
      simp only [htx, if_true, if_false, sendRDO, txStep] at heq <;>
      cases heq <;>
      constructor
    · exact ⟨by rw [ID_SetID _ _ (by omega), h], trivial⟩
    · simp [cntAfter]; omega
    · exact ⟨by rw [ID_SetID _ _ (by omega), h], trivial⟩
    · simp [cntAfter]; omega
  case sinkTransitionSink => cases heq; simpa [txSeqOk, cntAfter] using h
  case sinkReady =>
    by_cases hw : pe.waitingOnSource
    · simp only [hw, if_true] at heq
      cases heq
      simpa [txSeqOk, cntAfter] using h
    · simp only [hw, if_false] at heq
      cases hpps : ppsNegotiated pe with
      | error p => rw [hpps] at heq; cases heq
      | ok b =>
        rw [hpps] at heq
        cases heq
        cases b <;> simpa [txSeqOk, cntAfter] using h
  case sinkHardReset => cases heq; simpa [txSeqOk, cntAfter] using h

theorem process_txSeq (s : SName) (pe : PE) (m : Message) (e n : Nat)
    (h : pe.nextTxID = n % 8) :
    ∀ pe' nx outs, processState s pe m e = .ok (pe', nx, outs) →
      txSeqOk n outs ∧ pe'.nextTxID = cntAfter n outs % 8 := by
  intro pe' nx outs heq
  cases s <;> simp only [processState] at heq
  case sinkTransitionSink =>
    split at heq
    · cases heq; simpa [txSeqOk, cntAfter] using h
    · split at heq
      · split at heq
        · cases halert : alertPCCB pe true with
          | error p => rw [halert] at heq; cases heq
          | ok d =>
            rw [halert] at heq
            cases heq
            simpa [txSeqOk, cntAfter] using h
        · cases heq; simpa [txSeqOk, cntAfter] using h
      · cases heq; simpa [txSeqOk, cntAfter] using h
  all_goals
    (repeat' split at heq) <;> (cases heq; simpa [txSeqOk, cntAfter] using h)

theorem applyNext_pe (cur : SName) (pe : PE) (next : Option SName) (err : Bool) :
    (applyNext cur pe next err).pe = pe := by
  unfold applyNext
  split <;> rfl

theorem step_txSeq (dpm : List Nat → Nat) (cfg : Config) (o : Oracle) (n : Nat)
    (h : cfg.pe.nextTxID = n % 8) :
    ∀ outs r, step dpm cfg o = (outs, r) →
      txSeqOk n outs ∧ ∀ c', r = .ok c' → c'.pe.nextTxID = cntAfter n outs % 8 := by
  intro outs r heq
  unfold step at heq
  by_cases hent : cfg.entering
  · simp only [hent, if_true] at heq
    cases henter : enterState dpm o cfg.cur { cfg.pe with timer := none } with
    | error p =>
      rw [henter] at heq
      cases heq
      exact ⟨trivial, fun c' hc' => by cases hc'⟩
    | ok rr =>
      obtain ⟨pe', nx, err, outs0⟩ := rr
      rw [henter] at heq
      cases heq
      have hmain := enter_txSeq dpm o cfg.cur { cfg.pe with timer := none } n (by simpa using h)
        _ _ _ _ henter
      exact ⟨hmain.1, fun c' hc' => by cases hc'; rw [applyNext_pe]; exact hmain.2⟩
  · simp only [hent, if_false, Bool.false_eq_true] at heq
    cases halert : o.alertRes with
    | error u =>
      rw [halert] at heq
      cases heq
      exact ⟨trivial, fun c' hc' => by cases hc'; rw [applyNext_pe]; simpa [cntAfter] using h⟩
    | ok ev =>
      rw [halert] at heq
      by_cases he0 : (Event.Pop (cfg.pe.events ||| ev % 65536)).1 = 0
      · simp only [he0, if_true] at heq
        by_cases htmr : ({ cfg.pe with events := (Event.Pop (cfg.pe.events ||| ev % 65536)).2 }
            : PE).timer.isSome ∧ o.timerFired
        · simp only [htmr, if_true] at heq
          cases hproc : processState cfg.cur
              { cfg.pe with events := (Event.Pop (cfg.pe.events ||| ev % 65536)).2, timer := none }
              emptyMessage 256 with
          | error p =>
            rw [hproc] at heq
            cases heq
            exact ⟨trivial, fun c' hc' => by cases hc'⟩
          | ok rr =>
            obtain ⟨pe', nx, outs0⟩ := rr
            rw [hproc] at heq
            cases heq
            have hmain := process_txSeq cfg.cur
              { cfg.pe with events := (Event.Pop (cfg.pe.events ||| ev % 65536)).2, timer := none }
              emptyMessage 256 n (by simpa using h) _ _ _ hproc
            exact ⟨hmain.1, fun c' hc' => by cases hc'; rw [applyNext_pe]; exact hmain.2⟩
        · simp only [htmr, if_false] at heq
          cases heq
          exact ⟨trivial, fun c' hc' => by cases hc'; simpa [cntAfter] using h⟩
      · simp only [he0, if_false] at heq
        by_cases h4 : (Event.Pop (cfg.pe.events ||| ev % 65536)).1 = 4
        · simp only [h4, if_true] at heq
          cases heq
          exact ⟨trivial, fun c' hc' => by cases hc'; simpa [cntAfter] using h⟩
        · simp only [h4, if_false] at heq
          by_cases h8 : (Event.Pop (cfg.pe.events ||| ev % 65536)).1 = 8
          · simp only [h8, if_true] at heq
            cases heq
            exact ⟨trivial, fun c' hc' => by cases hc'; simpa [cntAfter] using h⟩
          · simp only [h8, if_false] at heq
            by_cases h16 : (Event.Pop (cfg.pe.events ||| ev % 65536)).1 = 16
            · simp only [h16, if_true] at heq
              cases heq
              exact ⟨trivial, fun c' hc' => by cases hc'; simpa [cntAfter] using h⟩
            · simp only [h16, if_false] at heq
              by_cases h641 : (Event.Pop (cfg.pe.events ||| ev % 65536)).1 = 64 ∨
                  (Event.Pop (cfg.pe.events ||| ev % 65536)).1 = 1
              · simp only [h641, if_true] at heq
                cases heq
                exact ⟨trivial, fun c' hc' => by
                  cases hc'; rw [applyNext_pe]; simpa [cntAfter] using h⟩
              · simp only [h641, if_false] at heq
                by_cases h2 : (Event.Pop (cfg.pe.events ||| ev % 65536)).1 = 2
                · simp only [h2, if_true] at heq
                  cases heq
                  exact ⟨trivial, fun c' hc' => by
                    cases hc'; rw [applyNext_pe]; simpa [cntAfter] using h⟩
                · simp only [h2, if_false] at heq
                  by_cases h128 : (Event.Pop (cfg.pe.events ||| ev % 65536)).1 = 128
                  · simp only [h128, if_true] at heq
                    cases hrx : peRx ({ cfg.pe with
                        events := (Event.Pop (cfg.pe.events ||| ev % 65536)).2 } : PE).lastRxID
                        o.rxq with
                    | none =>
                      rw [hrx] at heq
                      by_cases hre : o.rxEmptyAtEnd
                      · simp only [hre, if_true] at heq
                        cases heq
                        exact ⟨trivial, fun c' hc' => by cases hc'; simpa [cntAfter] using h⟩
                      · simp only [hre, if_false, Bool.false_eq_true] at heq
                        cases heq
                        exact ⟨trivial, fun c' hc' => by
                          cases hc'; rw [applyNext_pe]; simpa [cntAfter] using h⟩
                    | some t =>
                      obtain ⟨m, newLast, rest⟩ := t
                      rw [hrx] at heq
                      dsimp only at heq
                      cases hproc : processState cfg.cur { cfg.pe with events := (Event.Pop (cfg.pe.events ||| ev % 65536)).2, lastRxID := newLast } m 128 with
                      | error p =>
                        rw [hproc] at heq
                        cases heq
                        exact ⟨trivial, fun c' hc' => by cases hc'⟩
                      | ok rr =>
                        obtain ⟨pe', nx, outs0⟩ := rr
                        rw [hproc] at heq
                        cases heq
                        have hmain := process_txSeq cfg.cur { cfg.pe with events := (Event.Pop (cfg.pe.events ||| ev % 65536)).2, lastRxID := newLast } m 128 n (by simpa using h) _ _ _ hproc
                        refine ⟨hmain.1, fun c' hc' => ?_⟩
                        cases hc'
                        rw [applyNext_pe]
                        exact hmain.2
                  · simp only [h128, if_false] at heq
                    cases hproc : processState cfg.cur
                        { cfg.pe with events := (Event.Pop (cfg.pe.events ||| ev % 65536)).2 }
                        emptyMessage (Event.Pop (cfg.pe.events ||| ev % 65536)).1 with
                    | error p =>
                      rw [hproc] at heq
                      cases heq
                      exact ⟨trivial, fun c' hc' => by cases hc'⟩
                    | ok rr =>
                      obtain ⟨pe', nx, outs0⟩ := rr
                      rw [hproc] at heq
                      cases heq
                      have hmain := process_txSeq cfg.cur
                        { cfg.pe with events := (Event.Pop (cfg.pe.events ||| ev % 65536)).2 }
                        emptyMessage (Event.Pop (cfg.pe.events ||| ev % 65536)).1 n
                        (by simpa using h) _ _ _ hproc
                      refine ⟨hmain.1, fun c' hc' => ?_⟩
                      cases hc'
                      rw [applyNext_pe]
                      exact hmain.2

theorem run_txSeq (dpm : List Nat → Nat) (oracs : List Oracle) (cfg : Config) (n : Nat)
    (h : cfg.pe.nextTxID = n % 8) :
    txSeqOk n (run dpm cfg oracs).1 := by
  induction oracs generalizing cfg n with
  | nil => simp [run, txSeqOk]
  | cons o os ih =>
    have hs := step_txSeq dpm cfg o n h (step dpm cfg o).1 (step dpm cfg o).2 rfl
    unfold run
    cases hstep : step dpm cfg o with
    | mk outs r =>
      rw [hstep] at hs
      cases r with
      | error p => simpa using hs.1
      | ok cfg' =>
        simp only
        rw [txSeqOk_append]
        exact ⟨hs.1, ih cfg' (cntAfter n outs) (hs.2 cfg' rfl)⟩

/-- Claim C4: over every oracle behaviour and every DPM, the k-th message
transmitted since the most recent SinkStartup entry is stamped with ID
`k % 8`, and SinkStartup entry resets the next-tx counter to 0 (the
`enterStartup` marker opening its output trace). -/
theorem claim_C4_tx_id_sequencing (dpm : List Nat → Nat) (oracs : List Oracle) :
    txSeqOk 0 (run dpm initConfig oracs).1 ∧
      ∀ o pe pe' nx err outs, enterState dpm o .sinkStartup pe = .ok (pe', nx, err, outs) →
        pe'.nextTxID = 0 ∧ outs.head? = some .enterStartup := by
  constructor
  · exact run_txSeq dpm oracs initConfig 0 rfl
  · intro o pe pe' nx err outs heq
    cases heq
    exact ⟨rfl, rfl⟩

/-- Witness for C4 at the concrete C1 scenario DPM and oracle trace, with the
startup-entry conjunct discharged at `newPE` and an idle oracle. -/
theorem claim_C4_witness :
    txSeqOk 0 (run dpmC1 initConfig oracsC1).1 ∧
      ({ newPE with nextTxID := 0, lastRxID := 8, explicitContract := false } : PE).nextTxID = 0 :=
  ⟨(claim_C4_tx_id_sequencing dpmC1 oracsC1).1,
    ((claim_C4_tx_id_sequencing dpmC1 oracsC1).2 idleOracle newPE _ _ _ _ rfl).1⟩

/-! ### The CV policy selection (claim C8) -/
theorem masked_or_lt (o C t s w : Nat) (hC : C < 4294967296) (ht : t < 2 ^ w) (hsw : s + w ≤ 32) :
    ((o &&& C) ||| (t <<< s)) < 4294967296 := by
  have e : (4294967296 : Nat) = 2 ^ 32 := by norm_num
  rw [e] at hC ⊢
  refine Nat.or_lt_two_pow (lt_of_le_of_lt Nat.and_le_right hC) ?_
  rw [Nat.shiftLeft_eq]
  calc t * 2 ^ s < 2 ^ w * 2 ^ s :=
        Nat.mul_lt_mul_of_lt_of_le ht (le_refl _) (Nat.pos_pow_of_pos s (by norm_num))
    _ = 2 ^ (w + s) := by rw [pow_add]
    _ ≤ 2 ^ 32 := Nat.pow_le_pow_right (by norm_num) (by omega)

theorem updFixedRDO_decodes (r pos cur : Nat) (hpos : pos < 16) :
    RequestDO.SelectedObjectPosition (updFixedRDO r pos cur) = pos ∧
      RequestDO.FixedOperatingCurrent (updFixedRDO r pos cur) =
        ((cur % 65536) / 10 &&& 1023) * 10 ∧
      RequestDO.FixedMaxOperatingCurrent (updFixedRDO r pos cur) =
        ((cur % 65536) / 10 &&& 1023) * 10 := by
  have n10 : (1023 : Nat) = 2 ^ 10 - 1 := by norm_num
  have n32 : (4294967295 : Nat) = 2 ^ 32 - 1 := by norm_num
  have n15 : (15 : Nat) = 2 ^ 4 - 1 := by norm_num
  have ht : (cur % 65536) / 10 &&& 1023 < 2 ^ 10 := lt_of_le_of_lt Nat.and_le_right (by norm_num)
  have hposmod : ((pos % 256) <<< 28) % 4294967296 = pos <<< 28 := by
    rw [Nat.shiftLeft_eq, Nat.shiftLeft_eq,
      show (4294967296 : Nat) = 16 * 268435456 by norm_num, Nat.mul_mod_mul_right,
      Nat.mod_mod_of_dvd _ (by norm_num), Nat.mod_eq_of_lt hpos]
  refine ⟨?_, ?_, ?_⟩
  · -- SelectedObjectPosition
    have hlt : updFixedRDO r pos cur < 4294967296 := by
      unfold updFixedRDO RequestDO.SetFixedOperatingCurrent
      exact masked_or_lt _ _ _ 10 10 (by decide) (by rw [show (1023:Nat) = 2 ^ 10 - 1 by norm_num] at ht; exact ht) (by norm_num)
    unfold RequestDO.SelectedObjectPosition
    rw [Nat.mod_eq_of_lt (by rw [Nat.shiftRight_eq_div_pow]; omega)]
    have hand : updFixedRDO r pos cur >>> 28 = (updFixedRDO r pos cur >>> 28) &&& (2 ^ 4 - 1) := by
      rw [Nat.and_pow_two_sub_one_of_lt_two_pow]
      rw [Nat.shiftRight_eq_div_pow]
      omega
    rw [hand]
    unfold updFixedRDO RequestDO.SetFixedOperatingCurrent
    rw [n10, n32]
    rw [get_other_of_set 32 10 10 28 4 _ _ (by norm_num) (by rw [← n10]; exact ht) (by norm_num)
      (by omega)]
    unfold RequestDO.SetFixedMaxOperatingCurrent
    rw [n10, n32]
    have h0 := get_other_of_set 32 0 10 28 4
      (RequestDO.SetSelectedObjectPosition r pos) ((cur % 65536) / 10 &&& (2 ^ 10 - 1))
      (by norm_num) (by rw [← n10]; exact ht) (by norm_num) (by omega)
    rw [Nat.shiftLeft_zero, Nat.shiftLeft_zero] at h0
    rw [h0]
    unfold RequestDO.SetSelectedObjectPosition
    rw [hposmod, n15, n32]
    rw [get_of_set 32 28 4 r pos (by norm_num) (by omega)]
  · -- FixedOperatingCurrent
    unfold RequestDO.FixedOperatingCurrent updFixedRDO RequestDO.SetFixedOperatingCurrent
    rw [n10, n32]
    rw [get_of_set 32 10 10 _ _ (by norm_num) (by rw [← n10]; exact ht)]
    rw [← n10]
    exact Nat.mod_eq_of_lt (by omega)
  · -- FixedMaxOperatingCurrent
    unfold RequestDO.FixedMaxOperatingCurrent updFixedRDO RequestDO.SetFixedOperatingCurrent
    have hshape : ∀ x : Nat, x &&& 1023 = (x >>> 0) &&& (2 ^ 10 - 1) := by
      intro x; rw [Nat.shiftRight_zero, n10]
    rw [hshape, n10, n32]
    rw [get_other_of_set 32 10 10 0 10 _ _ (by norm_num) (by rw [← n10]; exact ht) (by norm_num)
      (by omega)]
    unfold RequestDO.SetFixedMaxOperatingCurrent
    rw [n10, n32]
    have h0 := get_of_set 32 0 10 (RequestDO.SetSelectedObjectPosition r pos)
      ((cur % 65536) / 10 &&& (2 ^ 10 - 1)) (by norm_num) (by rw [← n10]; exact ht)
    rw [Nat.shiftLeft_zero, Nat.shiftLeft_zero] at h0
    rw [h0, ← n10]
    exact Nat.mod_eq_of_lt (by omega)

theorem updPPSRDO_pos (r pos v cc : Nat) (hpos : pos < 16) :
    RequestDO.SelectedObjectPosition (updPPSRDO r pos v cc) = pos := by
  have n32 : (4294967295 : Nat) = 2 ^ 32 - 1 := by norm_num
  have n15 : (15 : Nat) = 2 ^ 4 - 1 := by norm_num
  have n7 : (127 : Nat) = 2 ^ 7 - 1 := by norm_num
  have n12 : (4095 : Nat) = 2 ^ 12 - 1 := by norm_num
  have ht7 : (cc % 65536) / 50 &&& (2 ^ 7 - 1) < 2 ^ 7 :=
    lt_of_le_of_lt Nat.and_le_right (by norm_num)
  have ht12 : (v % 65536) / 20 &&& (2 ^ 12 - 1) < 2 ^ 12 :=
    lt_of_le_of_lt Nat.and_le_right (by norm_num)
  have hposmod : ((pos % 256) <<< 28) % 4294967296 = pos <<< 28 := by
    rw [Nat.shiftLeft_eq, Nat.shiftLeft_eq,
      show (4294967296 : Nat) = 16 * 268435456 by norm_num, Nat.mul_mod_mul_right,
      Nat.mod_mod_of_dvd _ (by norm_num), Nat.mod_eq_of_lt hpos]
  have hlt : updPPSRDO r pos v cc < 4294967296 := by
    unfold updPPSRDO RequestDO.SetPPSOutputCurrent
    rw [show ((cc % 65536) / 50 &&& 127) = ((cc % 65536) / 50 &&& 127) <<< 0 by
      rw [Nat.shiftLeft_zero]]
    exact masked_or_lt _ _ _ 0 7 (by decide) (by rw [n7]; exact ht7) (by norm_num)
  unfold RequestDO.SelectedObjectPosition
  rw [Nat.mod_eq_of_lt (by rw [Nat.shiftRight_eq_div_pow]; omega)]
  have hand : updPPSRDO r pos v cc >>> 28 = (updPPSRDO r pos v cc >>> 28) &&& (2 ^ 4 - 1) := by
    rw [Nat.and_pow_two_sub_one_of_lt_two_pow]
    rw [Nat.shiftRight_eq_div_pow]
    omega
  rw [hand]
  unfold updPPSRDO RequestDO.SetPPSOutputCurrent
  rw [n7, n32]
  have h1 := get_other_of_set 32 0 7 28 4
    (RequestDO.SetPPSOutputVoltage (RequestDO.SetSelectedObjectPosition r pos) v)
    ((cc % 65536) / 50 &&& (2 ^ 7 - 1)) (by norm_num) ht7 (by norm_num) (by omega)
  rw [Nat.shiftLeft_zero, Nat.shiftLeft_zero] at h1
  rw [h1]
  unfold RequestDO.SetPPSOutputVoltage
  rw [n12, n32]
  rw [get_other_of_set 32 9 12 28 4 _ _ (by norm_num) ht12 (by norm_num) (by omega)]
  unfold RequestDO.SetSelectedObjectPosition
  rw [hposmod, n15, n32]
  rw [get_of_set 32 28 4 r pos (by norm_num) (by omega)]

/-- The CV loop is the product of its two independent components. -/
theorem cvLoop_decomp (c : CVPolicy) (pm : Nat) :
    ∀ (l : List Nat) (i : Nat) (bf bp : Nat × Nat),
      cvLoop c pm i bf bp l = (cvFixedFold c i bf l, cvPPSFold c pm i bp l) := by
  intro l
  induction l with
  | nil => intro i bf bp; rfl
  | cons p rest ih =>
    intro i bf bp
    unfold cvLoop cvFixedFold cvPPSFold
    by_cases h0 : PDO.getType p = 0
    · simp [h0, ih]
    · by_cases h7 : PDO.getType p = 7
      · simp [h0, h7, ih]
      · simp [h0, h7, ih]

/-- Characterization of the fixed fold when `PreferLowerVoltage` is false:
with threshold `b`, either no qualifier beats `b` and the state is unchanged,
or the fold picks the first qualifier attaining the maximal qualifying
voltage above `b`, and the stored RDO decodes to its 1-based position and the
policy current. -/
theorem cvFixedFold_high (c : CVPolicy) (hplv : c.PreferLowerVoltage = false) :
    ∀ (l : List Nat) (i0 b r0 : Nat), i0 + l.length ≤ 15 →
      ((∀ k, k < l.length →
          ¬(QFix c (l.getD k 0) ∧ b < FixedSupplyPDO.Voltage (l.getD k 0))) →
        cvFixedFold c i0 (b, r0) l = (b, r0)) ∧
      (∀ j0, j0 < l.length → QFix c (l.getD j0 0) →
        b < FixedSupplyPDO.Voltage (l.getD j0 0) →
        ∃ j, j < l.length ∧ QFix c (l.getD j 0) ∧
          b < FixedSupplyPDO.Voltage (l.getD j 0) ∧
          (cvFixedFold c i0 (b, r0) l).1 = FixedSupplyPDO.Voltage (l.getD j 0) ∧
          (∀ k, k < l.length → QFix c (l.getD k 0) →
            FixedSupplyPDO.Voltage (l.getD k 0) ≤ FixedSupplyPDO.Voltage (l.getD j 0)) ∧
          (∀ k, k < j → QFix c (l.getD k 0) →
            FixedSupplyPDO.Voltage (l.getD k 0) < FixedSupplyPDO.Voltage (l.getD j 0)) ∧
          RequestDO.SelectedObjectPosition (cvFixedFold c i0 (b, r0) l).2 = i0 + j + 1 ∧
          RequestDO.FixedOperatingCurrent (cvFixedFold c i0 (b, r0) l).2 =
            ((c.Current % 65536) / 10 &&& 1023) * 10 ∧
          RequestDO.FixedMaxOperatingCurrent (cvFixedFold c i0 (b, r0) l).2 =
            ((c.Current % 65536) / 10 &&& 1023) * 10) := by
  intro l
  induction l with
  | nil =>
    intro i0 b r0 hlen
    exact ⟨fun _ => rfl, fun j0 hj0 => absurd hj0 (by simp)⟩
  | cons p rest ih =>
    intro i0 b r0 hlen
    by_cases h0 : PDO.getType p = 0
    · -- fixed-typed head
      by_cases htake : QFix c p ∧ b < FixedSupplyPDO.Voltage p
      · -- head is taken: state becomes (v p, upd)
        have hq := htake.1
        have hq' := hq
        unfold QFix at hq'
        have hstep : cvFixedUpdate c i0 p (b, r0) =
            (FixedSupplyPDO.Voltage p, updFixedRDO r0 (i0 % 256 + 1) c.Current) := by
          have hcond : (c.PreferLowerVoltage = true ∧
                FixedSupplyPDO.Voltage p < (b, r0).1) ∨
              (¬c.PreferLowerVoltage = true ∧ (b, r0).1 < FixedSupplyPDO.Voltage p) := by
            right
            exact ⟨by simp [hplv], htake.2⟩
          unfold cvFixedUpdate
          rw [if_pos ⟨hq'.2.1, hq'.2.2.1, hq'.2.2.2⟩, if_pos hcond,
            show (i0 % 256 + 1) % 256 = i0 % 256 + 1 from Nat.mod_eq_of_lt (by omega)]
          rfl
        have hupd : cvFixedFold c i0 (b, r0) (p :: rest) =
            cvFixedFold c (i0 + 1)
              (FixedSupplyPDO.Voltage p, updFixedRDO r0 (i0 % 256 + 1) c.Current) rest := by
          simp only [cvFixedFold]
          rw [if_pos h0, hstep]
        have hposi : i0 % 256 + 1 = i0 + 1 := by
          rw [Nat.mod_eq_of_lt (by omega)]
        constructor
        · -- no-beat hypothesis is contradicted by the head
          intro hnb
          exact absurd htake (hnb 0 (by simp))
        · intro j0 hj0 hq0 hb0
          have hdec := updFixedRDO_decodes r0 (i0 % 256 + 1) c.Current (by omega)
          by_cases hbeat : ∃ k, k < rest.length ∧ QFix c (rest.getD k 0) ∧
              FixedSupplyPDO.Voltage p < FixedSupplyPDO.Voltage (rest.getD k 0)
          · -- a later qualifier beats the head
            obtain ⟨k0, hk0, hkq, hkv⟩ := hbeat
            obtain ⟨j, hj, hjq, hjb, hjv, hjmax, hjfirst, hjpos, hjfoc, hjfmoc⟩ :=
              (ih (i0 + 1) (FixedSupplyPDO.Voltage p)
                (updFixedRDO r0 (i0 % 256 + 1) c.Current) (by simp at hlen ⊢; omega)).2
                k0 hk0 hkq hkv
            refine ⟨j + 1, by simpa using hj, by simpa using hjq, ?_, ?_, ?_, ?_, ?_, ?_, ?_⟩
            · simp only [List.getD_cons_succ]
              exact lt_trans htake.2 hjb
            · rw [hupd]; simpa using hjv
            · intro k hk hkq2
              cases k with
              | zero =>
                simp only [List.getD_cons_zero, List.getD_cons_succ]
                exact le_of_lt hjb
              | succ k' =>
                simp only [List.getD_cons_succ] at hkq2 ⊢
                exact hjmax k' (by simpa using hk) hkq2
            · intro k hk hkq2
              cases k with
              | zero =>
                simp only [List.getD_cons_zero, List.getD_cons_succ]
                exact hjb
              | succ k' =>
                simp only [List.getD_cons_succ] at hkq2 ⊢
                exact hjfirst k' (by omega) hkq2
            · rw [hupd]
              rw [hjpos]
              omega
            · rw [hupd]; exact hjfoc
            · rw [hupd]; exact hjfmoc
          · -- nothing in the tail beats the head: the head is the pick
            push_neg at hbeat
            have hA := (ih (i0 + 1) (FixedSupplyPDO.Voltage p)
              (updFixedRDO r0 (i0 % 256 + 1) c.Current) (by simp at hlen ⊢; omega)).1
            have hfix : cvFixedFold c (i0 + 1)
                (FixedSupplyPDO.Voltage p, updFixedRDO r0 (i0 % 256 + 1) c.Current) rest =
                (FixedSupplyPDO.Voltage p, updFixedRDO r0 (i0 % 256 + 1) c.Current) := by
              apply hA
              intro k hk hcontra
              exact absurd (hbeat k hk hcontra.1) (by omega)
            refine ⟨0, by simp, by simpa using htake.1, by simpa using htake.2, ?_, ?_, ?_,
              ?_, ?_, ?_⟩
            · rw [hupd, hfix]; simp
            · intro k hk hkq2
              cases k with
              | zero => simp
              | succ k' =>
                simp only [List.getD_cons_succ, List.getD_cons_zero] at hkq2 ⊢
                have := hbeat k' (by simpa using hk) hkq2
                omega
            · intro k hk; omega
            · rw [hupd, hfix]
              show RequestDO.SelectedObjectPosition (updFixedRDO r0 (i0 % 256 + 1) c.Current) =
                i0 + 0 + 1
              rw [hdec.1]
              omega
            · rw [hupd, hfix]
              exact hdec.2.1
            · rw [hupd, hfix]
              exact hdec.2.2
      · -- head skipped (not qualifying or not beating)
        have hstep : cvFixedUpdate c i0 p (b, r0) = (b, r0) := by
          unfold cvFixedUpdate
          by_cases hrange : c.MinVoltage ≤ FixedSupplyPDO.Voltage p ∧
              FixedSupplyPDO.Voltage p ≤ c.MaxVoltage ∧
              c.Current ≤ FixedSupplyPDO.MaxCurrent p
          · rw [if_pos hrange, if_neg]
            intro hcond
            rcases hcond with ⟨hpl, _⟩ | ⟨_, hbv⟩
            · rw [hplv] at hpl; exact absurd hpl (by simp)
            · exact htake ⟨⟨h0, hrange.1, hrange.2.1, hrange.2.2⟩, hbv⟩
          · rw [if_neg hrange]
        have hupd : cvFixedFold c i0 (b, r0) (p :: rest) =
            cvFixedFold c (i0 + 1) (b, r0) rest := by
          simp only [cvFixedFold]
          rw [if_pos h0, hstep]
        constructor
        · intro hnb
          rw [hupd]
          exact (ih (i0 + 1) b r0 (by simp at hlen ⊢; omega)).1
            (fun k hk hc => hnb (k + 1) (by simpa using hk) (by simpa using hc))
        · intro j0 hj0 hq0 hb0
          have hnot0 : j0 ≠ 0 := by
            intro h
            subst h
            simp only [List.getD_cons_zero] at hq0 hb0
            exact htake ⟨hq0, hb0⟩
          obtain ⟨j0', rfl⟩ := Nat.exists_eq_succ_of_ne_zero hnot0
          simp only [List.getD_cons_succ] at hq0 hb0
          obtain ⟨j, hj, hjq, hjb, hjv, hjmax, hjfirst, hjpos, hjfoc, hjfmoc⟩ :=
            (ih (i0 + 1) b r0 (by simp at hlen ⊢; omega)).2 j0' (by simpa using hj0) hq0 hb0
          refine ⟨j + 1, by simpa using hj, by simpa using hjq, by simpa using hjb, ?_, ?_,
            ?_, ?_, ?_, ?_⟩
          · rw [hupd]; simpa using hjv
          · intro k hk hkq2
            cases k with
            | zero =>
              simp only [List.getD_cons_zero, List.getD_cons_succ] at hkq2 ⊢
              by_cases hbv : b < FixedSupplyPDO.Voltage p
              · exact absurd ⟨hkq2, hbv⟩ htake
              · exact le_trans (le_of_not_lt hbv) (le_of_lt hjb)
            | succ k' =>
              simp only [List.getD_cons_succ] at hkq2 ⊢
              exact hjmax k' (by simpa using hk) hkq2
          · intro k hk hkq2
            cases k with
            | zero =>
              simp only [List.getD_cons_zero, List.getD_cons_succ] at hkq2 ⊢
              by_cases hbv : b < FixedSupplyPDO.Voltage p
              · exact absurd ⟨hkq2, hbv⟩ htake
              · exact lt_of_le_of_lt (le_of_not_lt hbv) hjb
            | succ k' =>
              simp only [List.getD_cons_succ] at hkq2 ⊢
              exact hjfirst k' (by omega) hkq2
          · rw [hupd, hjpos]; omega
          · rw [hupd]; exact hjfoc
          · rw [hupd]; exact hjfmoc
    · -- non-fixed head: skipped entirely
      have hupd : cvFixedFold c i0 (b, r0) (p :: rest) =
          cvFixedFold c (i0 + 1) (b, r0) rest := by
        simp only [cvFixedFold]
        rw [if_neg h0]
      constructor
      · intro hnb
        rw [hupd]
        exact (ih (i0 + 1) b r0 (by simp at hlen ⊢; omega)).1
          (fun k hk hc => hnb (k + 1) (by simpa using hk) (by simpa using hc))
      · intro j0 hj0 hq0 hb0
        have hnot0 : j0 ≠ 0 := by
          intro h
          subst h
          simp only [List.getD_cons_zero] at hq0
          exact h0 hq0.1
        obtain ⟨j0', rfl⟩ := Nat.exists_eq_succ_of_ne_zero hnot0
        simp only [List.getD_cons_succ] at hq0 hb0
        obtain ⟨j, hj, hjq, hjb, hjv, hjmax, hjfirst, hjpos, hjfoc, hjfmoc⟩ :=
          (ih (i0 + 1) b r0 (by simp at hlen ⊢; omega)).2 j0' (by simpa using hj0) hq0 hb0
        refine ⟨j + 1, by simpa using hj, by simpa using hjq, by simpa using hjb, ?_, ?_,
          ?_, ?_, ?_, ?_⟩
        · rw [hupd]; simpa using hjv
        · intro k hk hkq2
          cases k with
          | zero =>
            simp only [List.getD_cons_zero] at hkq2
            exact absurd hkq2.1 h0
          | succ k' =>
            simp only [List.getD_cons_succ] at hkq2 ⊢
            exact hjmax k' (by simpa using hk) hkq2
        · intro k hk hkq2
          cases k with
          | zero =>
            simp only [List.getD_cons_zero] at hkq2
            exact absurd hkq2.1 h0
          | succ k' =>
            simp only [List.getD_cons_succ] at hkq2 ⊢
            exact hjfirst k' (by omega) hkq2
        · rw [hupd, hjpos]; omega
        · rw [hupd]; exact hjfoc
        · rw [hupd]; exact hjfmoc

/-- Characterization of the fixed fold when `PreferLowerVoltage` is true:
mirror image of `cvFixedFold_high` with the comparison reversed. -/
theorem cvFixedFold_low (c : CVPolicy) (hplv : c.PreferLowerVoltage = true) :
    ∀ (l : List Nat) (i0 b r0 : Nat), i0 + l.length ≤ 15 →
      ((∀ k, k < l.length →
          ¬(QFix c (l.getD k 0) ∧ FixedSupplyPDO.Voltage (l.getD k 0) < b)) →
        cvFixedFold c i0 (b, r0) l = (b, r0)) ∧
      (∀ j0, j0 < l.length → QFix c (l.getD j0 0) →
        FixedSupplyPDO.Voltage (l.getD j0 0) < b →
        ∃ j, j < l.length ∧ QFix c (l.getD j 0) ∧
          FixedSupplyPDO.Voltage (l.getD j 0) < b ∧
          (cvFixedFold c i0 (b, r0) l).1 = FixedSupplyPDO.Voltage (l.getD j 0) ∧
          (∀ k, k < l.length → QFix c (l.getD k 0) →
            FixedSupplyPDO.Voltage (l.getD j 0) ≤ FixedSupplyPDO.Voltage (l.getD k 0) ∨
              b ≤ FixedSupplyPDO.Voltage (l.getD k 0)) ∧
          (∀ k, k < j → QFix c (l.getD k 0) →
            FixedSupplyPDO.Voltage (l.getD j 0) < FixedSupplyPDO.Voltage (l.getD k 0) ∨
              b ≤ FixedSupplyPDO.Voltage (l.getD k 0)) ∧
          RequestDO.SelectedObjectPosition (cvFixedFold c i0 (b, r0) l).2 = i0 + j + 1 ∧
          RequestDO.FixedOperatingCurrent (cvFixedFold c i0 (b, r0) l).2 =
            ((c.Current % 65536) / 10 &&& 1023) * 10 ∧
          RequestDO.FixedMaxOperatingCurrent (cvFixedFold c i0 (b, r0) l).2 =
            ((c.Current % 65536) / 10 &&& 1023) * 10) := by
  intro l
  induction l with
  | nil =>
    intro i0 b r0 hlen
    exact ⟨fun _ => rfl, fun j0 hj0 => absurd hj0 (by simp)⟩
  | cons p rest ih =>
    intro i0 b r0 hlen
    by_cases h0 : PDO.getType p = 0
    · by_cases htake : QFix c p ∧ FixedSupplyPDO.Voltage p < b
      · have hq := htake.1
        have hq' := hq
        unfold QFix at hq'
        have hstep : cvFixedUpdate c i0 p (b, r0) =
            (FixedSupplyPDO.Voltage p, updFixedRDO r0 (i0 % 256 + 1) c.Current) := by
          have hcond : (c.PreferLowerVoltage = true ∧
                FixedSupplyPDO.Voltage p < (b, r0).1) ∨
              (¬c.PreferLowerVoltage = true ∧ (b, r0).1 < FixedSupplyPDO.Voltage p) := by
            left
            exact ⟨hplv, htake.2⟩
          unfold cvFixedUpdate
          rw [if_pos ⟨hq'.2.1, hq'.2.2.1, hq'.2.2.2⟩, if_pos hcond,
            show (i0 % 256 + 1) % 256 = i0 % 256 + 1 from Nat.mod_eq_of_lt (by omega)]
          rfl
        have hupd : cvFixedFold c i0 (b, r0) (p :: rest) =
            cvFixedFold c (i0 + 1)
              (FixedSupplyPDO.Voltage p, updFixedRDO r0 (i0 % 256 + 1) c.Current) rest := by
          simp only [cvFixedFold]
          rw [if_pos h0, hstep]
        have hposi : i0 % 256 + 1 = i0 + 1 := by
          rw [Nat.mod_eq_of_lt (by omega)]
        constructor
        · intro hnb
          exact absurd htake (hnb 0 (by simp))
        · intro j0 hj0 hq0 hb0
          have hdec := updFixedRDO_decodes r0 (i0 % 256 + 1) c.Current (by omega)
          by_cases hbeat : ∃ k, k < rest.length ∧ QFix c (rest.getD k 0) ∧
              FixedSupplyPDO.Voltage (rest.getD k 0) < FixedSupplyPDO.Voltage p
          · obtain ⟨k0, hk0, hkq, hkv⟩ := hbeat
            obtain ⟨j, hj, hjq, hjb, hjv, hjmax, hjfirst, hjpos, hjfoc, hjfmoc⟩ :=
              (ih (i0 + 1) (FixedSupplyPDO.Voltage p)
                (updFixedRDO r0 (i0 % 256 + 1) c.Current) (by simp at hlen ⊢; omega)).2
                k0 hk0 hkq hkv
            refine ⟨j + 1, by simpa using hj, by simpa using hjq, ?_, ?_, ?_, ?_, ?_, ?_, ?_⟩
            · simp only [List.getD_cons_succ]
              exact lt_trans hjb htake.2
            · rw [hupd]; simpa using hjv
            · intro k hk hkq2
              cases k with
              | zero =>
                simp only [List.getD_cons_zero, List.getD_cons_succ]
                exact Or.inl (le_of_lt hjb)
              | succ k' =>
                simp only [List.getD_cons_succ] at hkq2 ⊢
                rcases hjmax k' (by simpa using hk) hkq2 with h | h
                · exact Or.inl h
                · exact Or.inl (le_of_lt (lt_of_lt_of_le hjb h))
            · intro k hk hkq2
              cases k with
              | zero =>
                simp only [List.getD_cons_zero, List.getD_cons_succ]
                exact Or.inl hjb
              | succ k' =>
                simp only [List.getD_cons_succ] at hkq2 ⊢
                rcases hjfirst k' (by omega) hkq2 with h | h
                · exact Or.inl h
                · exact Or.inl (lt_of_lt_of_le hjb h)
            · rw [hupd, hjpos]
              omega
            · rw [hupd]; exact hjfoc
            · rw [hupd]; exact hjfmoc
          · push_neg at hbeat
            have hA := (ih (i0 + 1) (FixedSupplyPDO.Voltage p)
              (updFixedRDO r0 (i0 % 256 + 1) c.Current) (by simp at hlen ⊢; omega)).1
            have hfix : cvFixedFold c (i0 + 1)
                (FixedSupplyPDO.Voltage p, updFixedRDO r0 (i0 % 256 + 1) c.Current) rest =
                (FixedSupplyPDO.Voltage p, updFixedRDO r0 (i0 % 256 + 1) c.Current) := by
              apply hA
              intro k hk hcontra
              exact absurd (hbeat k hk hcontra.1) (by omega)
            refine ⟨0, by simp, by simpa using htake.1, by simpa using htake.2, ?_, ?_, ?_,
              ?_, ?_, ?_⟩
            · rw [hupd, hfix]; simp
            · intro k hk hkq2
              cases k with
              | zero => simp
              | succ k' =>
                simp only [List.getD_cons_succ, List.getD_cons_zero] at hkq2 ⊢
                have := hbeat k' (by simpa using hk) hkq2
                omega
            · intro k hk; omega
            · rw [hupd, hfix]
              show RequestDO.SelectedObjectPosition (updFixedRDO r0 (i0 % 256 + 1) c.Current) =
                i0 + 0 + 1
              rw [hdec.1]
              omega
            · rw [hupd, hfix]
              exact hdec.2.1
            · rw [hupd, hfix]
              exact hdec.2.2
      · have hstep : cvFixedUpdate c i0 p (b, r0) = (b, r0) := by
          unfold cvFixedUpdate
          by_cases hrange : c.MinVoltage ≤ FixedSupplyPDO.Voltage p ∧
              FixedSupplyPDO.Voltage p ≤ c.MaxVoltage ∧
              c.Current ≤ FixedSupplyPDO.MaxCurrent p
          · rw [if_pos hrange, if_neg]
            intro hcond
            rcases hcond with ⟨_, hbv⟩ | ⟨hpl, _⟩
            · exact htake ⟨⟨h0, hrange.1, hrange.2.1, hrange.2.2⟩, hbv⟩
            · rw [hplv] at hpl; exact absurd rfl hpl
          · rw [if_neg hrange]
        have hupd : cvFixedFold c i0 (b, r0) (p :: rest) =
            cvFixedFold c (i0 + 1) (b, r0) rest := by
          simp only [cvFixedFold]
          rw [if_pos h0, hstep]
        constructor
        · intro hnb
          rw [hupd]
          exact (ih (i0 + 1) b r0 (by simp at hlen ⊢; omega)).1
            (fun k hk hc => hnb (k + 1) (by simpa using hk) (by simpa using hc))
        · intro j0 hj0 hq0 hb0
          have hnot0 : j0 ≠ 0 := by
            intro h
            subst h
            simp only [List.getD_cons_zero] at hq0 hb0
            exact htake ⟨hq0, hb0⟩
          obtain ⟨j0', rfl⟩ := Nat.exists_eq_succ_of_ne_zero hnot0
          simp only [List.getD_cons_succ] at hq0 hb0
          obtain ⟨j, hj, hjq, hjb, hjv, hjmax, hjfirst, hjpos, hjfoc, hjfmoc⟩ :=
            (ih (i0 + 1) b r0 (by simp at hlen ⊢; omega)).2 j0' (by simpa using hj0) hq0 hb0
          refine ⟨j + 1, by simpa using hj, by simpa using hjq, by simpa using hjb, ?_, ?_,
            ?_, ?_, ?_, ?_⟩
          · rw [hupd]; simpa using hjv
          · intro k hk hkq2
            cases k with
            | zero =>
              simp only [List.getD_cons_zero, List.getD_cons_succ] at hkq2 ⊢
              by_cases hbv : FixedSupplyPDO.Voltage p < b
              · exact absurd ⟨hkq2, hbv⟩ htake
              · exact Or.inr (le_of_not_lt hbv)
            | succ k' =>
              simp only [List.getD_cons_succ] at hkq2 ⊢
              exact hjmax k' (by simpa using hk) hkq2
          · intro k hk hkq2
            cases k with
            | zero =>
              simp only [List.getD_cons_zero, List.getD_cons_succ] at hkq2 ⊢
              by_cases hbv : FixedSupplyPDO.Voltage p < b
              · exact absurd ⟨hkq2, hbv⟩ htake
              · exact Or.inr (le_of_not_lt hbv)
            | succ k' =>
              simp only [List.getD_cons_succ] at hkq2 ⊢
              exact hjfirst k' (by omega) hkq2
          · rw [hupd, hjpos]; omega
          · rw [hupd]; exact hjfoc
          · rw [hupd]; exact hjfmoc
    · have hupd : cvFixedFold c i0 (b, r0) (p :: rest) =
          cvFixedFold c (i0 + 1) (b, r0) rest := by
        simp only [cvFixedFold]
        rw [if_neg h0]
      constructor
      · intro hnb
        rw [hupd]
        exact (ih (i0 + 1) b r0 (by simp at hlen ⊢; omega)).1
          (fun k hk hc => hnb (k + 1) (by simpa using hk) (by simpa using hc))
      · intro j0 hj0 hq0 hb0
        have hnot0 : j0 ≠ 0 := by
          intro h
          subst h
          simp only [List.getD_cons_zero] at hq0
          exact h0 hq0.1
        obtain ⟨j0', rfl⟩ := Nat.exists_eq_succ_of_ne_zero hnot0
        simp only [List.getD_cons_succ] at hq0 hb0
        obtain ⟨j, hj, hjq, hjb, hjv, hjmax, hjfirst, hjpos, hjfoc, hjfmoc⟩ :=
          (ih (i0 + 1) b r0 (by simp at hlen ⊢; omega)).2 j0' (by simpa using hj0) hq0 hb0
        refine ⟨j + 1, by simpa using hj, by simpa using hjq, by simpa using hjb, ?_, ?_,
          ?_, ?_, ?_, ?_⟩
        · rw [hupd]; simpa using hjv
        · intro k hk hkq2
          cases k with
          | zero =>
            simp only [List.getD_cons_zero] at hkq2
            exact absurd hkq2.1 h0
          | succ k' =>
            simp only [List.getD_cons_succ] at hkq2 ⊢
            exact hjmax k' (by simpa using hk) hkq2
        · intro k hk hkq2
          cases k with
          | zero =>
            simp only [List.getD_cons_zero] at hkq2
            exact absurd hkq2.1 h0
          | succ k' =>
            simp only [List.getD_cons_succ] at hkq2 ⊢
            exact hjfirst k' (by omega) hkq2
        · rw [hupd, hjpos]; omega
        · rw [hupd]; exact hjfoc
        · rw [hupd]; exact hjfmoc

/-- The PPS fold either leaves the stored RDO untouched or selects some
qualifying PPS PDO, whose 1-based position the RDO then encodes. -/
theorem cvPPSFold_sel (c : CVPolicy) (pm : Nat) :
    ∀ (l : List Nat) (i0 b r0 : Nat), i0 + l.length ≤ 15 →
      (cvPPSFold c pm i0 (b, r0) l).2 = r0 ∨
        ∃ k, k < l.length ∧ QPps c pm (l.getD k 0) ∧
          RequestDO.SelectedObjectPosition (cvPPSFold c pm i0 (b, r0) l).2 = i0 + k + 1 := by
  intro l
  induction l with
  | nil => intro i0 b r0 hlen; exact Or.inl rfl
  | cons p rest ih =>
    intro i0 b r0 hlen
    have hi0 : i0 ≤ 14 := by simp only [List.length_cons] at hlen; omega
    by_cases h7 : PDO.getType p = 7
    · have hupd : cvPPSFold c pm i0 (b, r0) (p :: rest) =
          cvPPSFold c pm (i0 + 1) (cvPPSUpdate c pm i0 p (b, r0)) rest := by
        simp only [cvPPSFold]
        rw [if_pos h7]
      by_cases hqual : max c.MinVoltage (PPSPDO.MinVoltage p) ≤
          min c.MaxVoltage (PPSPDO.MaxVoltage p) ∧ pm ≤ PPSPDO.MaxCurrent p
      · -- the head qualifies; the update may or may not take it
        have hposi : (i0 % 256 + 1) % 256 = i0 + 1 := by
          rw [Nat.mod_eq_of_lt (show i0 < 256 by omega), Nat.mod_eq_of_lt (by omega)]
        by_cases hlow : c.PreferLowerVoltage ∧ max c.MinVoltage (PPSPDO.MinVoltage p) < b
        · -- taken at the clamped minimum voltage
          have hstep : cvPPSUpdate c pm i0 p (b, r0) =
              (max c.MinVoltage (PPSPDO.MinVoltage p),
                updPPSRDO r0 (i0 + 1) (max c.MinVoltage (PPSPDO.MinVoltage p)) c.Current) := by
            unfold cvPPSUpdate
            rw [if_pos hqual, if_pos (by exact ⟨hlow.1, hlow.2⟩), hposi]
            rfl
          rw [hupd, hstep]
          rcases ih (i0 + 1) _ _ (by simp at hlen ⊢; omega) with h | ⟨k, hk, hkq, hkpos⟩
          · right
            refine ⟨0, by simp, by simpa [QPps, h7] using hqual, ?_⟩
            rw [h, updPPSRDO_pos _ _ _ _ (by omega)]
          · right
            exact ⟨k + 1, by simpa using hk, by simpa using hkq, by rw [hkpos]; omega⟩
        · by_cases hhigh : ¬c.PreferLowerVoltage ∧ b < min c.MaxVoltage (PPSPDO.MaxVoltage p)
          · have hstep : cvPPSUpdate c pm i0 p (b, r0) =
                (min c.MaxVoltage (PPSPDO.MaxVoltage p),
                  updPPSRDO r0 (i0 + 1) (min c.MaxVoltage (PPSPDO.MaxVoltage p)) c.Current) := by
              unfold cvPPSUpdate
              rw [if_pos hqual, if_neg (by exact hlow), if_pos (by exact ⟨hhigh.1, hhigh.2⟩),
                hposi]
              rfl
            rw [hupd, hstep]
            rcases ih (i0 + 1) _ _ (by simp at hlen ⊢; omega) with h | ⟨k, hk, hkq, hkpos⟩
            · right
              refine ⟨0, by simp, by simpa [QPps, h7] using hqual, ?_⟩
              rw [h, updPPSRDO_pos _ _ _ _ (by omega)]
            · right
              exact ⟨k + 1, by simpa using hk, by simpa using hkq, by rw [hkpos]; omega⟩
          · -- qualifies but neither comparison fires: state unchanged
            have hstep : cvPPSUpdate c pm i0 p (b, r0) = (b, r0) := by
              unfold cvPPSUpdate
              rw [if_pos hqual, if_neg (by exact hlow), if_neg (by exact hhigh)]
            rw [hupd, hstep]
            rcases ih (i0 + 1) b r0 (by simp at hlen ⊢; omega) with h | ⟨k, hk, hkq, hkpos⟩
            · exact Or.inl h
            · right
              exact ⟨k + 1, by simpa using hk, by simpa using hkq, by rw [hkpos]; omega⟩
      · have hstep : cvPPSUpdate c pm i0 p (b, r0) = (b, r0) := by
          unfold cvPPSUpdate
          rw [if_neg hqual]
        rw [hupd, hstep]
        rcases ih (i0 + 1) b r0 (by simp at hlen ⊢; omega) with h | ⟨k, hk, hkq, hkpos⟩
        · exact Or.inl h
        · right
          exact ⟨k + 1, by simpa using hk, by simpa using hkq, by rw [hkpos]; omega⟩
    · have hupd : cvPPSFold c pm i0 (b, r0) (p :: rest) =
          cvPPSFold c pm (i0 + 1) (b, r0) rest := by
        simp only [cvPPSFold]
        rw [if_neg h7]
      rw [hupd]
      rcases ih (i0 + 1) b r0 (by simp at hlen ⊢; omega) with h | ⟨k, hk, hkq, hkpos⟩
      · exact Or.inl h
      · right
        exact ⟨k + 1, by simpa using hk, by simpa using hkq, by rw [hkpos]; omega⟩

theorem cvEval_eq (c : CVPolicy) (pdos : List Nat) :
    CVPolicy.EvaluateCapabilities c pdos =
      (if (cvFixedFold c 0 (if c.PreferLowerVoltage then 65535 else 0, 0) pdos).2 = 0 then
        (cvPPSFold c ((c.Current + cvCurrentMargin) % 65536) 0
          (if c.PreferLowerVoltage then 65535 else 0, 0) pdos).2
      else if (cvPPSFold c ((c.Current + cvCurrentMargin) % 65536) 0
          (if c.PreferLowerVoltage then 65535 else 0, 0) pdos).2 = 0 then
        (cvFixedFold c 0 (if c.PreferLowerVoltage then 65535 else 0, 0) pdos).2
      else if c.PreferPPS then
        (cvPPSFold c ((c.Current + cvCurrentMargin) % 65536) 0
          (if c.PreferLowerVoltage then 65535 else 0, 0) pdos).2
      else (cvFixedFold c 0 (if c.PreferLowerVoltage then 65535 else 0, 0) pdos).2) := by
  unfold CVPolicy.EvaluateCapabilities
  dsimp only
  rw [cvLoop_decomp]

theorem cur_trunc (cur : Nat) (h : cur ≤ 10230) :
    ((cur % 65536) / 10 &&& 1023) * 10 = cur / 10 * 10 := by
  rw [Nat.mod_eq_of_lt (by omega),
    show (1023 : Nat) = 2 ^ 10 - 1 by norm_num,
    Nat.and_pow_two_sub_one_of_lt_two_pow (show cur / 10 < 2 ^ 10 by omega)]

theorem voltage_le (p : Nat) : FixedSupplyPDO.Voltage p ≤ 51150 := by
  unfold FixedSupplyPDO.Voltage
  have h1 : (p >>> 10) &&& 1023 ≤ 1023 := Nat.and_le_right
  exact le_trans (Nat.mod_le _ _) (by omega)

/-- Amended claim C8: for PDO lists of up to 15 entries and a CV policy with
PreferPPS false and Current on the 16-bit/10-mA scale, (1) with
PreferLowerVoltage false, if some fixed PDO qualifies with nonzero decoded
voltage then the result selects the first qualifying fixed PDO of maximal
voltage, with both RDO current fields equal to the policy current rounded
down to the 10 mA grid; (2) with PreferLowerVoltage true the mirror-image
statement holds for minimal voltage (with no nonzero-voltage proviso); and
(3) when no fixed PDO qualifies in the effective sense of (1)/(2), a
non-empty result always selects a PPS PDO whose clamped voltage range is
non-empty and whose max current is at least the policy current plus the
150 mA margin. -/
theorem claim_C8_amended (c : CVPolicy) (pdos : List Nat)
    (hpps : c.PreferPPS = false) (hlen : pdos.length ≤ 15) (hcur : c.Current ≤ 10230) :
    (c.PreferLowerVoltage = false →
      ∀ j0, j0 < pdos.length → QFix c (pdos.getD j0 0) →
        0 < FixedSupplyPDO.Voltage (pdos.getD j0 0) →
        ∃ j, j < pdos.length ∧ QFix c (pdos.getD j 0) ∧
          (∀ k, k < pdos.length → QFix c (pdos.getD k 0) →
            FixedSupplyPDO.Voltage (pdos.getD k 0) ≤ FixedSupplyPDO.Voltage (pdos.getD j 0)) ∧
          (∀ k, k < j → QFix c (pdos.getD k 0) →
            FixedSupplyPDO.Voltage (pdos.getD k 0) < FixedSupplyPDO.Voltage (pdos.getD j 0)) ∧
          RequestDO.SelectedObjectPosition (CVPolicy.EvaluateCapabilities c pdos) = j + 1 ∧
          RequestDO.FixedOperatingCurrent (CVPolicy.EvaluateCapabilities c pdos) =
            c.Current / 10 * 10 ∧
          RequestDO.FixedMaxOperatingCurrent (CVPolicy.EvaluateCapabilities c pdos) =
            c.Current / 10 * 10) ∧
    (c.PreferLowerVoltage = true →
      ∀ j0, j0 < pdos.length → QFix c (pdos.getD j0 0) →
        ∃ j, j < pdos.length ∧ QFix c (pdos.getD j 0) ∧
          (∀ k, k < pdos.length → QFix c (pdos.getD k 0) →
            FixedSupplyPDO.Voltage (pdos.getD j 0) ≤ FixedSupplyPDO.Voltage (pdos.getD k 0)) ∧
          (∀ k, k < j → QFix c (pdos.getD k 0) →
            FixedSupplyPDO.Voltage (pdos.getD j 0) < FixedSupplyPDO.Voltage (pdos.getD k 0)) ∧
          RequestDO.SelectedObjectPosition (CVPolicy.EvaluateCapabilities c pdos) = j + 1 ∧
          RequestDO.FixedOperatingCurrent (CVPolicy.EvaluateCapabilities c pdos) =
            c.Current / 10 * 10 ∧
          RequestDO.FixedMaxOperatingCurrent (CVPolicy.EvaluateCapabilities c pdos) =
            c.Current / 10 * 10) ∧
    ((∀ k, k < pdos.length → ¬(QFix c (pdos.getD k 0) ∧
        (c.PreferLowerVoltage = true ∨ 0 < FixedSupplyPDO.Voltage (pdos.getD k 0)))) →
      CVPolicy.EvaluateCapabilities c pdos ≠ 0 →
      ∃ k, k < pdos.length ∧ QPps c (c.Current + 150) (pdos.getD k 0) ∧
        RequestDO.SelectedObjectPosition (CVPolicy.EvaluateCapabilities c pdos) = k + 1) := by
  have hpm : (c.Current + cvCurrentMargin) % 65536 = c.Current + 150 := by
    unfold cvCurrentMargin
    exact Nat.mod_eq_of_lt (by omega)
  refine ⟨?_, ?_, ?_⟩
  · -- prefer higher voltage
    intro hplv j0 hj0 hq0 hv0
    have hfold := (cvFixedFold_high c hplv pdos 0 0 0 (by omega)).2 j0 hj0 hq0 hv0
    obtain ⟨j, hj, hjq, hjb, hjv, hjmax, hjfirst, hjpos, hjfoc, hjfmoc⟩ := hfold
    have hbf0 : (cvFixedFold c 0 (0, 0) pdos).2 ≠ 0 := by
      intro hz
      rw [hz] at hjpos
      simp [RequestDO.SelectedObjectPosition] at hjpos
    have hres : CVPolicy.EvaluateCapabilities c pdos = (cvFixedFold c 0 (0, 0) pdos).2 := by
      rw [cvEval_eq, hplv]
      simp only [if_false, Bool.false_eq_true]
      rw [if_neg hbf0]
      by_cases hbp : (cvPPSFold c ((c.Current + cvCurrentMargin) % 65536) 0 (0, 0) pdos).2 = 0
      · rw [if_pos hbp]
      · rw [if_neg hbp, hpps]
        simp
    refine ⟨j, hj, hjq, hjmax, hjfirst, ?_, ?_, ?_⟩
    · rw [hres, hjpos]
      omega
    · rw [hres, hjfoc, cur_trunc c.Current hcur]
    · rw [hres, hjfmoc, cur_trunc c.Current hcur]
  · -- prefer lower voltage
    intro hplv j0 hj0 hq0
    have hv0 : FixedSupplyPDO.Voltage (pdos.getD j0 0) < 65535 :=
      lt_of_le_of_lt (voltage_le _) (by norm_num)
    have hfold := (cvFixedFold_low c hplv pdos 0 65535 0 (by omega)).2 j0 hj0 hq0 hv0
    obtain ⟨j, hj, hjq, hjb, hjv, hjmax, hjfirst, hjpos, hjfoc, hjfmoc⟩ := hfold
    have hbf0 : (cvFixedFold c 0 (65535, 0) pdos).2 ≠ 0 := by
      intro hz
      rw [hz] at hjpos
      simp [RequestDO.SelectedObjectPosition] at hjpos
    have hres : CVPolicy.EvaluateCapabilities c pdos = (cvFixedFold c 0 (65535, 0) pdos).2 := by
      rw [cvEval_eq, hplv]
      simp only [if_true]
      rw [if_neg hbf0]
      by_cases hbp : (cvPPSFold c ((c.Current + cvCurrentMargin) % 65536) 0 (65535, 0) pdos).2 = 0
      · rw [if_pos hbp]
      · rw [if_neg hbp, hpps]
        simp
    refine ⟨j, hj, hjq, ?_, ?_, ?_, ?_, ?_⟩
    · intro k hk hkq
      rcases hjmax k hk hkq with h | h
      · exact h
      · exact absurd h (by have := voltage_le (pdos.getD k 0); omega)
    · intro k hk hkq
      rcases hjfirst k hk hkq with h | h
      · exact h
      · exact absurd h (by have := voltage_le (pdos.getD k 0); omega)
    · rw [hres, hjpos]
      omega
    · rw [hres, hjfoc, cur_trunc c.Current hcur]
    · rw [hres, hjfmoc, cur_trunc c.Current hcur]
  · -- no effective fixed qualifier: any selection is a qualifying PPS PDO
    intro hnofx hres0
    cases hplv : c.PreferLowerVoltage with
    | true =>
      have hbfA : cvFixedFold c 0 (65535, 0) pdos = (65535, 0) := by
        apply (cvFixedFold_low c hplv pdos 0 65535 0 (by omega)).1
        intro k hk hcontra
        exact hnofx k hk ⟨hcontra.1, Or.inl hplv⟩
      have hres : CVPolicy.EvaluateCapabilities c pdos =
          (cvPPSFold c ((c.Current + cvCurrentMargin) % 65536) 0 (65535, 0) pdos).2 := by
        rw [cvEval_eq, hplv]
        simp only [if_true]
        rw [hbfA]
        simp
      rw [hres] at hres0 ⊢
      rcases cvPPSFold_sel c ((c.Current + cvCurrentMargin) % 65536) pdos 0 65535 0
          (by omega) with h | ⟨k, hk, hkq, hkpos⟩
      · exact absurd h hres0
      · rw [hpm] at hkq
        exact ⟨k, hk, hkq, by rw [hkpos]; omega⟩
    | false =>
      have hbfA : cvFixedFold c 0 (0, 0) pdos = (0, 0) := by
        apply (cvFixedFold_high c hplv pdos 0 0 0 (by omega)).1
        intro k hk hcontra
        exact hnofx k hk ⟨hcontra.1, Or.inr hcontra.2⟩
      have hres : CVPolicy.EvaluateCapabilities c pdos =
          (cvPPSFold c ((c.Current + cvCurrentMargin) % 65536) 0 (0, 0) pdos).2 := by
        rw [cvEval_eq, hplv]
        simp only [if_false, Bool.false_eq_true]
        rw [hbfA]
        simp
      rw [hres] at hres0 ⊢
      rcases cvPPSFold_sel c ((c.Current + cvCurrentMargin) % 65536) pdos 0 0 0
          (by omega) with h | ⟨k, hk, hkq, hkpos⟩
      · exact absurd h hres0
      · rw [hpm] at hkq
        exact ⟨k, hk, hkq, by rw [hkpos]; omega⟩

/-- Counterexample to claim C8 as stated: the all-zero PDO is a fixed-supply
PDO qualifying under the policy (voltage 0 within [0, 1000] mV, max current
0 >= policy current 0), yet with PreferLowerVoltage false the code requires a
strict improvement over the initial best voltage 0, so no fixed PDO is
selected and the empty RDO (position 0) is returned. -/
theorem claim_C8_counterexample :
    PDO.getType 0 = 0 ∧ (0 : Nat) ≤ FixedSupplyPDO.Voltage 0 ∧
      FixedSupplyPDO.Voltage 0 ≤ 1000 ∧ (0 : Nat) ≤ FixedSupplyPDO.MaxCurrent 0 ∧
      CVPolicy.EvaluateCapabilities ⟨0, 1000, 0, false, false⟩ [0] = 0 ∧
      RequestDO.SelectedObjectPosition
        (CVPolicy.EvaluateCapabilities ⟨0, 1000, 0, false, false⟩ [0]) ≠ 1 := by decide

/-- Witness for C8 at a 5 V/3 A + 9 V/3 A source and a 4-10 V / 3 A policy:
position 2 (the 9 V profile) is selected at 3000 mA. -/
theorem claim_C8_witness :
    RequestDO.SelectedObjectPosition
        (CVPolicy.EvaluateCapabilities ⟨4000, 10000, 3000, false, false⟩ [102700, 184620]) = 2 ∧
      RequestDO.FixedOperatingCurrent
        (CVPolicy.EvaluateCapabilities ⟨4000, 10000, 3000, false, false⟩ [102700, 184620]) =
        3000 := by
  obtain ⟨j, hj, hjq, hmax, hfirst, hpos, hfoc, hfmoc⟩ :=
    (claim_C8_amended ⟨4000, 10000, 3000, false, false⟩ [102700, 184620] rfl (by norm_num)
        (by norm_num)).1 rfl 1 (by norm_num)
      (by unfold QFix; refine ⟨?_, ?_, ?_, ?_⟩ <;> decide) (by decide)
  have hj2 : j < 2 := by simpa using hj
  interval_cases j
  · have h1 := hmax 1 (by norm_num) (by unfold QFix; refine ⟨?_, ?_, ?_, ?_⟩ <;> decide)
    revert h1
    decide
  · exact ⟨hpos, hfoc⟩
